import Mathlib

/-!
# Verification of the social-cat resilience and workflow layer

Shallow embedding of the resilience wrapper (circuit breaker, rate
limiter), the workflow validation/control-flow semantics, the run-queue
retry configuration, the Todoist HTTP helper and the Twitter search
parser, with theorems settling the specification claims.

Code present in `src/` (the Gamma client wiring, `todoistRequest` and the
Todoist operations, `searchTwitter`, the BullMQ job options of
`setupTwitterReplyJob`, `waitForCompletionInternal`) is embedded directly
from the source.  The library modules `src/lib/resilience.ts`,
`src/lib/rate-limiter.ts`, the workflow engine and
`src/lib/workflows/import-export.ts` are not part of the snapshot; their
behaviour is modelled from the specification, and each such definition
says so in its doc comment.
-/

namespace SocialCat

/-! ## Circuit breaker (modelled from the spec) -/

/-- Circuit phases: `CLOSED`, `OPEN`, `HALF_OPEN`. -/
inductive CircuitPhase
  | closed
  | opened
  | halfOpen
  deriving DecidableEq, Repr

/-- Per-endpoint circuit state: phase, rolling failure count, and the
timestamp at which the circuit was opened (the cooldown reference point). -/
structure CircuitState where
  phase : CircuitPhase
  failureCount : Nat
  openedAt : Nat
  deriving DecidableEq, Repr

/-- Breaker configuration: failure threshold, cooldown window, per-call
timeout (the timeout value is carried for the wiring claims). -/
structure BreakerConfig where
  threshold : Nat
  cooldown : Nat
  timeout : Nat
  deriving DecidableEq, Repr

/-- Fresh circuit state: `CLOSED`, zero failures. -/
def CircuitState.init : CircuitState :=
  { phase := .closed, failureCount := 0, openedAt := 0 }

/-- Outcome of one call through the breaker. -/
inductive BreakerOutcome
  | success
  | failure
  | circuitOpenError
  deriving DecidableEq, Repr

/-- Result of one call through the breaker: the outcome, whether the
underlying callable was invoked, and the new circuit state. -/
structure BreakerResult where
  outcome : BreakerOutcome
  invoked : Bool
  state : CircuitState
  deriving DecidableEq, Repr

/-- Modelled from the spec: an `OPEN` circuit whose cooldown window has
elapsed transitions to `HALF_OPEN` before the next call is considered. -/
def tickPhase (cfg : BreakerConfig) (st : CircuitState) (now : Nat) : CircuitState :=
  if st.phase = .opened ∧ st.openedAt + cfg.cooldown ≤ now then
    { st with phase := .halfOpen }
  else
    st

/-- Modelled from the spec (`src/lib/resilience.ts` is not in the
snapshot): one call through the circuit breaker.  `underlyingOk` is
whether the underlying callable would succeed if invoked.
`CLOSED` calls pass through; each failure increments the rolling failure
counter and crossing the threshold opens the circuit; a success resets the
counter.  `OPEN` calls inside the cooldown fail immediately with
`CircuitOpenError` without invoking the underlying callable.  Once the
cooldown has elapsed the circuit becomes `HALF_OPEN` and admits exactly
one trial call: success closes the circuit and resets the counter, failure
reopens it and restarts the cooldown. -/
def breakerStep (cfg : BreakerConfig) (st : CircuitState) (now : Nat)
    (underlyingOk : Bool) : BreakerResult :=
  let st := tickPhase cfg st now
  match st.phase with
  | .opened =>
      { outcome := .circuitOpenError, invoked := false, state := st }
  | .halfOpen =>
      if underlyingOk then
        { outcome := .success, invoked := true,
          state := { phase := .closed, failureCount := 0, openedAt := st.openedAt } }
      else
        { outcome := .failure, invoked := true,
          state := { phase := .opened, failureCount := st.failureCount, openedAt := now } }
  | .closed =>
      if underlyingOk then
        { outcome := .success, invoked := true,
          state := { st with failureCount := 0 } }
      else
        let n := st.failureCount + 1
        if cfg.threshold ≤ n then
          { outcome := .failure, invoked := true,
            state := { phase := .opened, failureCount := n, openedAt := now } }
        else
          { outcome := .failure, invoked := true,
            state := { st with failureCount := n } }

/-- Apply a sequence of failing calls (timestamps `ts`) through the breaker. -/
def applyFailures (cfg : BreakerConfig) (st : CircuitState) : List Nat → CircuitState
  | [] => st
  | t :: ts => applyFailures cfg (breakerStep cfg st t false).state ts

/-! ## Rate limiter (modelled from the spec) -/

/-- Modelled from the spec (`src/lib/rate-limiter.ts` is not in the
snapshot): per-endpoint limiter configuration — minimum inter-call
interval, token-reservoir capacity, and the fixed refill amount and refill
interval. -/
structure LimiterConfig where
  minTime : Nat
  capacity : Nat
  refreshAmount : Nat
  refreshInterval : Nat
  deriving DecidableEq, Repr

/-- Limiter simulation state: current token count, time of the last
admitted call, the queue of delayed pending requests (by request id), and
the list of admissions `(request id, admission time)` so far. -/
structure LimiterSim where
  tokens : Nat
  lastCall : Option Nat
  queue : List Nat
  admitted : List (Nat × Nat)
  deriving DecidableEq, Repr

/-- Modelled from the spec: a call is admitted only when the minimum
inter-call interval has elapsed since the last admitted call and the token
reservoir holds at least one token. -/
def canAdmit (cfg : LimiterConfig) (st : LimiterSim) (t : Nat) : Bool :=
  (match st.lastCall with
   | none => true
   | some l => decide (l + cfg.minTime ≤ t)) && decide (1 ≤ st.tokens)

/-- The reservoir refills on a fixed interval, independent of consumption. -/
def isRefillTick (cfg : LimiterConfig) (t : Nat) : Bool :=
  decide (0 < t) && decide (t % cfg.refreshInterval = 0)

/-- Modelled from the spec: the timer-driven refill — by the fixed
configured amount, capped at the reservoir capacity, independent of
consumption. -/
def refillStep (cfg : LimiterConfig) (st : LimiterSim) (t : Nat) : LimiterSim :=
  if isRefillTick cfg t then
    { st with tokens := min (st.tokens + cfg.refreshAmount) cfg.capacity }
  else st

/-- Modelled from the spec: the oldest delayed request is admitted if the
gates pass, consuming one token and recording the admission; otherwise it
stays queued (delayed, never dropped). -/
def admitStep (cfg : LimiterConfig) (st : LimiterSim) (t : Nat) : LimiterSim :=
  match st.queue with
  | [] => st
  | r :: rest =>
      if canAdmit cfg st t then
        { tokens := st.tokens - 1, lastCall := some t, queue := rest,
          admitted := st.admitted ++ [(r, t)] }
      else st

/-- One time-step of the rate limiter: refill first (if due), then try to
admit the oldest delayed request. -/
def limTick (cfg : LimiterConfig) (st : LimiterSim) (t : Nat) : LimiterSim :=
  admitStep cfg (refillStep cfg st t) t

/-- Run the limiter for `n` consecutive time-steps starting at time `t0`. -/
def limRun (cfg : LimiterConfig) (st : LimiterSim) (t0 : Nat) : Nat → LimiterSim
  | 0 => st
  | n + 1 => limRun cfg (limTick cfg st t0) (t0 + 1) n

/-- Two admissions are separated by at least the minimum inter-call
interval. -/
def sepRel (cfg : LimiterConfig) (a b : Nat × Nat) : Prop :=
  a.2 + cfg.minTime ≤ b.2

/-- Invariant tying the admission log to the `lastCall` gate: admissions
are interval-separated, and every logged admission is no later than the
recorded last call. -/
def SepInv (cfg : LimiterConfig) (st : LimiterSim) : Prop :=
  List.Chain' (sepRel cfg) st.admitted ∧
  match st.lastCall with
  | none => st.admitted = []
  | some l => ∀ x ∈ st.admitted, x.2 ≤ l

/-! ## Resilience wrapper wiring (gamma and todoist clients) -/

/-- The successive gates a protected call passes through. -/
inductive Layer
  | rateLimitGate
  | circuitBreakerGate
  | timeoutGuard
  | underlyingCall
  deriving DecidableEq, Repr

/-- A callable, abstracted to the ordered list of gates it passes through
when invoked (outermost first). -/
abbrev Callable := List Layer

/-- Options passed to `createCircuitBreaker` in the source (the gamma
client passes a timeout and a breaker name; the todoist client passes
none, taking the library defaults). -/
structure BreakerOptions where
  timeout : Nat
  name : String
  deriving DecidableEq, Repr

/-- A circuit-breaker object; `fire` invokes the protected pipeline. -/
structure CircuitBreakerObj where
  fire : Callable
  opts : Option BreakerOptions
  deriving DecidableEq, Repr

/-- Modelled from the spec (`src/lib/resilience.ts` is not in the
snapshot): `createCircuitBreaker` wraps a callable so that an invocation
first passes the circuit-breaker gate, then the breaker's timeout guard,
then the wrapped callable. -/
def createCircuitBreaker (f : Callable) (opts : Option BreakerOptions) : CircuitBreakerObj :=
  ⟨Layer.circuitBreakerGate :: Layer.timeoutGuard :: f, opts⟩

/-- Options passed to `createRateLimiter` in the source; `none` fields
were omitted at the call site. -/
structure RateLimiterOptions where
  maxConcurrent : Nat
  minTime : Nat
  reservoir : Option Nat
  reservoirRefreshAmount : Option Nat
  reservoirRefreshInterval : Option Nat
  id : String
  deriving DecidableEq, Repr

/-- Modelled from the spec (`src/lib/rate-limiter.ts` is not in the
snapshot): `withRateLimit` wraps a callable so that an invocation first
passes the rate-limit gate of the given limiter, then the wrapped
callable. -/
def withRateLimit (f : Callable) (_limiter : RateLimiterOptions) : Callable :=
  Layer.rateLimitGate :: f

/-- `createRateLimiter` call of the gamma client (`src/unnamed/part_000`):
max 3 parallel requests, min 1s between requests, reservoir 60 refilled by
60 every 60s, id `gamma`. -/
def gammaRateLimiter : RateLimiterOptions :=
  ⟨3, 1000, some 60, some 60, some 60000, "gamma"⟩

/-- `createRateLimiter` call of the todoist client (`src/unnamed/part_008`):
max 10 concurrent, min 2s between requests, no reservoir fields, id
`todoist`. -/
def todoistRateLimiter : RateLimiterOptions :=
  ⟨10, 2000, none, none, none, "todoist"⟩

/-- The unprotected internal implementation of a client operation: it
performs the real call. -/
def internalCallable : Callable := [Layer.underlyingCall]

/-- `generateGammaWithBreaker` from the source: the breaker around
`generateGammaInternal`, timeout 30s, name `gamma.generateGamma`. -/
def generateGammaWithBreaker : CircuitBreakerObj :=
  createCircuitBreaker internalCallable (some ⟨30000, "gamma.generateGamma"⟩)

/-- Exported `generateGamma` from the source: the rate-limited firing of
the breaker-wrapped internal function. -/
def generateGamma : Callable :=
  withRateLimit generateGammaWithBreaker.fire gammaRateLimiter

/-- `getGenerationStatusWithBreaker` from the source: timeout 15s, name
`gamma.getGenerationStatus`. -/
def getGenerationStatusWithBreaker : CircuitBreakerObj :=
  createCircuitBreaker internalCallable (some ⟨15000, "gamma.getGenerationStatus"⟩)

/-- Exported `getGenerationStatus` from the source. -/
def getGenerationStatus : Callable :=
  withRateLimit getGenerationStatusWithBreaker.fire gammaRateLimiter

/-- `waitForCompletionWithBreaker` from the source: timeout 5 minutes,
name `gamma.waitForCompletion`. -/
def waitForCompletionWithBreaker : CircuitBreakerObj :=
  createCircuitBreaker internalCallable (some ⟨300000, "gamma.waitForCompletion"⟩)

/-- Exported `waitForCompletion` from the source. -/
def waitForCompletionExported : Callable :=
  withRateLimit waitForCompletionWithBreaker.fire gammaRateLimiter

/-- The exported todoist operations (`src/unnamed/part_008`), all wired
identically. -/
inductive TodoistOp
  | getAllTasks | getTask | createTask | updateTask | closeTask | reopenTask | deleteTask
  | getAllProjects | getProject | createProject | updateProject | deleteProject
  | getAllSections | getSection | createSection | updateSection | deleteSection
  | getAllComments | getComment | createComment | updateComment | deleteComment
  | getAllLabels | getLabel | createLabel | updateLabel | deleteLabel
  deriving DecidableEq, Repr

/-- Each todoist operation's internal implementation performs the real
call. -/
def todoistInternal (_op : TodoistOp) : Callable := [Layer.underlyingCall]

/-- `<op>WithBreaker` from the source: `createCircuitBreaker(<op>Internal)`
with no options. -/
def todoistWithBreaker (op : TodoistOp) : CircuitBreakerObj :=
  createCircuitBreaker (todoistInternal op) none

/-- Exported todoist operation from the source:
`withRateLimit(input => <op>WithBreaker.fire(input), rateLimiter)`. -/
def todoistExported (op : TodoistOp) : Callable :=
  withRateLimit (todoistWithBreaker op).fire todoistRateLimiter

/-! ## Bounded loops: `while` nodes and `waitForCompletionInternal` -/

/-- Result of a bounded loop: terminal outcome plus number of iterations
performed. -/
structure WhileResult (σ : Type) where
  outcome : Except String σ
  iterations : Nat
  deriving Repr

/-- Terminal error of a `while` node that exhausts its iteration bound. -/
def maxIterationsExceededError : String := "MaxIterationsExceededError"

/-- Modelled from the spec (the workflow engine is not in the snapshot):
a `while` node re-evaluates its condition before each iteration; when the
bound is exhausted and the condition still holds the node fails with
`MaxIterationsExceededError` instead of iterating further.  `rem` is the
remaining iteration budget, `done` the iterations performed so far. -/
def runWhileAux {σ : Type} (cond : σ → Bool) (body : σ → σ) :
    Nat → σ → Nat → WhileResult σ
  | 0, s, done =>
      if cond s then ⟨.error maxIterationsExceededError, done⟩ else ⟨.ok s, done⟩
  | rem + 1, s, done =>
      if cond s then runWhileAux cond body rem (body s) (done + 1) else ⟨.ok s, done⟩

/-- Modelled from the spec: the mandatory maximum-iteration count defaults
to 100. -/
def defaultMaxIterations : Nat := 100

/-- A `while` node run with an optional explicit bound. -/
def runWhile {σ : Type} (cond : σ → Bool) (body : σ → σ) (maxIterations : Option Nat)
    (s : σ) : WhileResult σ :=
  runWhileAux cond body (maxIterations.getD defaultMaxIterations) s 0

/-- Status payload of a Gamma generation poll. -/
inductive GenStatus
  | pending
  | completed
  | failed
  deriving DecidableEq, Repr

/-- JS `options.maxRetries || 60` from `waitForCompletionInternal`
(`src/unnamed/part_000`): `0` and absence are both falsy. -/
def normMaxRetries (m : Option Nat) : Nat :=
  match m with
  | none => 60
  | some v => if v = 0 then 60 else v

/-- Outcome of `waitForCompletionInternal` plus the number of status
checks performed. -/
structure WaitResult where
  outcome : Except String GenStatus
  checks : Nat
  deriving Repr

/-- The polling loop of `waitForCompletionInternal` (`src/unnamed/part_000`):
up to `maxRetries` status checks; `completed` returns, `failed` throws,
`pending` waits and retries; exhausting the retries throws the timeout
error naming `maxRetries`. -/
def waitFrom (poll : Nat → GenStatus) (maxRetries : Nat) : Nat → Nat → WaitResult
  | 0, i =>
      ⟨.error ("Generation timed out after " ++ toString maxRetries ++ " retries"), i⟩
  | fuel + 1, i =>
      match poll i with
      | .completed => ⟨.ok .completed, i + 1⟩
      | .failed => ⟨.error "Generation failed", i + 1⟩
      | .pending => waitFrom poll maxRetries fuel (i + 1)

/-- `waitForCompletionInternal`, abstracted over the poll results. -/
def waitForCompletionRun (poll : Nat → GenStatus) (maxRetries : Option Nat) : WaitResult :=
  waitFrom poll (normMaxRetries maxRetries) (normMaxRetries maxRetries) 0

/-! ## forEach nodes (modelled from the spec) -/

/-- Final outcome of one `forEach` iteration: its output value, or
`FAILED`. -/
inductive IterOutcome (α : Type)
  | success (v : α)
  | failed
  deriving DecidableEq, Repr

/-- Modelled from the spec (the workflow engine is not in the snapshot):
the per-iteration completion events of a `forEach` node.  `order` is the
order in which iterations complete; each event records the source
position and that iteration's final outcome. -/
def iterEvents {β γ : Type} (run : β → γ) (xs : List β) (order : List Nat) :
    List (Nat × γ) :=
  order.filterMap (fun i => (xs[i]?).map (fun x => (i, run x)))

/-- Modelled from the spec: the node's output binding is assembled by
source position, not by completion order. -/
def assembleOutput {γ : Type} (n : Nat) (events : List (Nat × γ)) : List (Option γ) :=
  (List.range n).map (fun i => events.lookup i)

/-- A `forEach` node: run every iteration (completing in `order`), then
bind the ordered list of final outcomes. -/
def forEachNode {β γ : Type} (run : β → γ) (xs : List β) (order : List Nat) :
    List (Option γ) :=
  assembleOutput xs.length (iterEvents run xs order)

/-! ## Workflow validation (modelled from the spec) -/

/-- The characters of the reference-expression syntax, by code point (the
opening and closing braces, the field separator and the index bracket). -/
def lbrace : Char := Char.ofNat 123

/-- Closing brace of a reference expression. -/
def rbrace : Char := Char.ofNat 125

/-- Opening index bracket of a reference expression. -/
def lbrack : Char := Char.ofNat 91

/-- Split a character list at the first closing `\x7d\x7d`, returning the
inner characters and the remainder, or `none` when the reference is never
closed. -/
def splitAtClose : List Char → Option (List Char × List Char)
  | [] => none
  | c1 :: rest =>
      match rest with
      | [] => none
      | c2 :: rest2 =>
          if c1 = rbrace ∧ c2 = rbrace then some ([], rest2)
          else (splitAtClose rest).map (fun p => (c1 :: p.1, p.2))

/-- First segment of a reference expression: the identifier before the
first `.` or `[`. -/
def headSeg : List Char → List Char
  | [] => []
  | c :: rest => if c = '.' ∨ c = lbrack then [] else c :: headSeg rest

/-- Modelled from the spec: scan a template's characters for
`\x7b\x7bidentifier.path\x7d\x7d` reference expressions and collect the
head identifier of each.  The fuel argument (instantiated with the
template length, which bounds the recursion depth) keeps the scanner
structurally recursive. -/
def scanRefsAux : Nat → List Char → List String
  | 0, _ => []
  | _, [] => []
  | _, [_] => []
  | fuel + 1, c1 :: c2 :: rest2 =>
      if c1 = lbrace ∧ c2 = lbrace then
        match splitAtClose rest2 with
        | some p => String.mk (headSeg p.1) :: scanRefsAux fuel p.2
        | none => []
      else scanRefsAux fuel (c2 :: rest2)

/-- Reference targets of one string-valued input template. -/
def refTargets (s : String) : List String :=
  scanRefsAux s.data.length s.data

/-- One step of a workflow definition: a unique id and the input template
mapping (parameter name to template string). -/
structure StepSpec where
  id : String
  inputs : List (String × String)
  deriving DecidableEq, Repr

/-- All reference targets of a step's input templates. -/
def stepRefs (st : StepSpec) : List String :=
  (st.inputs.map (fun p => refTargets p.2)).flatten

/-- Ids of the steps of a definition. -/
def workflowIds (ws : List StepSpec) : List String :=
  ws.map (fun st => st.id)

/-- References to the trigger payload or a credential placeholder do not
create dependency edges. -/
def isSpecialRef (r : String) : Bool :=
  r == "trigger" || r == "credential"

/-- Dependency edges of one step: its references that name another step. -/
def stepDeps (ws : List StepSpec) (st : StepSpec) : List String :=
  (stepRefs st).filter (fun r => !isSpecialRef r && (workflowIds ws).contains r)

/-- References that are neither special nor another step's id. -/
def unresolvedRefs (ws : List StepSpec) : List String :=
  (ws.map (fun st =>
    (stepRefs st).filter (fun r => !isSpecialRef r && !(workflowIds ws).contains r))).flatten

/-- The dependency map: step id to the list of step ids it depends on. -/
def depsMap (ws : List StepSpec) : List (String × List String) :=
  ws.map (fun st => (st.id, stepDeps ws st))

/-- Modelled from the spec: cycle detection by repeated resolution — a
node is resolvable once all its dependencies are resolved; if no node is
resolvable while some remain pending, those pending nodes form a cycle. -/
def hasCycleAux : Nat → List (String × List String) → List String → Bool
  | 0, pending, _ => !pending.isEmpty
  | fuel + 1, pending, resolved =>
      let ready := pending.filter (fun p => p.2.all (fun d => resolved.contains d))
      let rest := pending.filter (fun p => !p.2.all (fun d => resolved.contains d))
      if ready.isEmpty then !pending.isEmpty
      else hasCycleAux fuel rest (resolved ++ ready.map (fun p => p.1))

/-- Whether the dependency graph of a definition has a cycle. -/
def hasCycle (ws : List StepSpec) : Bool :=
  hasCycleAux ws.length (depsMap ws) []

/-- Fatal validation errors. -/
inductive ValidationError
  | unresolvedReference (ref : String)
  | cyclicDependency
  deriving DecidableEq, Repr

/-- Result of validating a workflow definition. -/
structure ValidationResult where
  valid : Bool
  errors : List ValidationError
  deriving DecidableEq, Repr

/-- Modelled from the spec (`src/lib/workflows/import-export.ts` is not in
the snapshot): validate a definition — an `UnresolvedReferenceError` for
every reference to a nonexistent step id, a `CyclicDependencyError` when
the dependency graph has a cycle; valid iff the error list is empty. -/
def validateWorkflow (ws : List StepSpec) : ValidationResult :=
  let errs :=
    (unresolvedRefs ws).map ValidationError.unresolvedReference
      ++ (if hasCycle ws then [ValidationError.cyclicDependency] else [])
  ⟨errs.isEmpty, errs⟩

/-- Modelled from the spec: validation happens before scheduling begins —
on a validation failure no step executes. -/
def executedStepIds (ws : List StepSpec) : List String :=
  if (validateWorkflow ws).valid then workflowIds ws else []

/-! ## Run-queue retry configuration (`setupTwitterReplyJob`) -/

/-- BullMQ backoff options as configured in the source. -/
structure BackoffOptions where
  type : String
  delay : Nat
  deriving DecidableEq, Repr

/-- BullMQ retention options (`age` in seconds, `count`). -/
structure RetentionOptions where
  age : Nat
  count : Nat
  deriving DecidableEq, Repr

/-- BullMQ default job options as configured in the source. -/
structure JobOptions where
  attempts : Nat
  backoff : BackoffOptions
  removeOnComplete : RetentionOptions
  removeOnFail : RetentionOptions
  deriving DecidableEq, Repr

/-- `defaultJobOptions` of `setupTwitterReplyJob` (`src/unnamed/part_007`):
3 attempts, exponential backoff starting at 5000 ms, completed jobs kept
24 h / 100 jobs, failed jobs kept 7 days / 500 jobs. -/
def twitterReplyJobOptions : JobOptions :=
  ⟨3, ⟨"exponential", 5000⟩, ⟨86400, 100⟩, ⟨604800, 500⟩⟩

/-- Modelled from the spec (BullMQ is an external library): the delay
before the `retryIndex`-th retry under exponential backoff doubles from
the base delay. -/
def backoffDelay (b : BackoffOptions) (retryIndex : Nat) : Nat :=
  if b.type = "exponential" then b.delay * 2 ^ retryIndex else b.delay

/-- The delays between successive attempts of a job. -/
def retryDelays (opts : JobOptions) : List Nat :=
  (List.range (opts.attempts - 1)).map (backoffDelay opts.backoff)

/-- Terminal fate of a queued run. -/
inductive JobFate
  | completed (attemptsUsed : Nat)
  | failedRetained (attemptsUsed : Nat) (retainedForSeconds : Nat)
  deriving DecidableEq, Repr

/-- Attempts consumed by a run. -/
def JobFate.attemptsUsed : JobFate → Nat
  | .completed n => n
  | .failedRetained n _ => n

/-- Modelled from the spec: the queue retries a run that raises an
unhandled error up to the configured attempt count; `succeeds k` is
whether attempt `k` (1-based) succeeds; a run that exhausts its attempts
is marked terminally failed and retained for the `removeOnFail` age
rather than discarded. -/
def runJobAux (opts : JobOptions) (succeeds : Nat → Bool) : Nat → Nat → JobFate
  | 0, used => .failedRetained used opts.removeOnFail.age
  | rem + 1, used =>
      if succeeds (used + 1) then .completed (used + 1)
      else runJobAux opts succeeds rem (used + 1)

/-- Run a queued job under the given options. -/
def runJob (opts : JobOptions) (succeeds : Nat → Bool) : JobFate :=
  runJobAux opts succeeds opts.attempts 0

/-! ## Process-wide endpoint registries (modelled from the spec) -/

/-- Modelled from the spec: look up an endpoint's shared state in a
process-wide registry, creating it lazily on first use; an existing entry
is returned as-is, never recreated. -/
def getOrCreateEntry {α : Type} (reg : List (String × α)) (id : String) (init : α) :
    α × List (String × α) :=
  match reg.lookup id with
  | some st => (st, reg)
  | none => (init, (id, init) :: reg)

/-- Modelled from the spec: one protected call made by run `_runId`
against endpoint `id`: read the endpoint's shared state (creating it on
first use), apply the state transition `f`, store the result.  The run
identity plays no role in which state is read or written. -/
def registryCall {α : Type} (_runId : Nat) (reg : List (String × α)) (id : String)
    (init : α) (f : α → α) : List (String × α) :=
  (id, f (getOrCreateEntry reg id init).1) :: (getOrCreateEntry reg id init).2

/-- The protected gamma-client operations (`src/unnamed/part_000`). -/
inductive GammaOp
  | generateGamma
  | getGenerationStatus
  | waitForCompletion
  deriving DecidableEq, Repr

/-- Every gamma operation is rate-limited through the module's single
`rateLimiter` object. -/
def gammaOpLimiter (_op : GammaOp) : RateLimiterOptions := gammaRateLimiter

/-- Every todoist operation is rate-limited through the module's single
`rateLimiter` object. -/
def todoistOpLimiter (_op : TodoistOp) : RateLimiterOptions := todoistRateLimiter

/-! ## Todoist HTTP helper (`todoistRequest`) and response handling -/

/-- JSON values. -/
inductive Json
  | null
  | bool (b : Bool)
  | num (n : Int)
  | str (s : String)
  | arr (xs : List Json)
  | obj (fields : List (String × Json))
  deriving Repr

/-- An HTTP response as observed by `todoistRequest`: status code, body
text (used in error messages) and parsed JSON body. -/
structure HttpResponse where
  status : Nat
  bodyText : String
  body : Json

/-- `Response.ok` of the fetch API: status in the range 200–299. -/
def respOk (r : HttpResponse) : Bool :=
  decide (200 ≤ r.status) && decide (r.status < 300)

/-- `todoistRequest` (`src/unnamed/part_008`): a non-ok response throws an
error naming the numeric status and the body text; a 204 resolves to
`\x7bsuccess: true\x7d`; otherwise the parsed JSON body is returned. -/
def todoistRequest (r : HttpResponse) : Except String Json :=
  if respOk r = false then
    .error ("Todoist API error (" ++ toString r.status ++ "): " ++ r.bodyText)
  else if r.status = 204 then
    .ok (Json.obj [("success", Json.bool true)])
  else
    .ok r.body

/-- Zod `z.string()` check. -/
def isStr : Json → Bool
  | .str _ => true
  | _ => false

/-- Zod `z.number()` check. -/
def isNum : Json → Bool
  | .num _ => true
  | _ => false

/-- Zod `z.boolean()` check. -/
def isBool : Json → Bool
  | .bool _ => true
  | _ => false

/-- Zod `z.array(z.string())` check. -/
def isStrArr : Json → Bool
  | .arr xs => xs.all isStr
  | _ => false

/-- A required field matching a predicate. -/
def reqField (fields : List (String × Json)) (k : String) (p : Json → Bool) : Bool :=
  match fields.lookup k with
  | some v => p v
  | none => false

/-- A `z.string().nullable().optional()` field. -/
def optNullableStr (fields : List (String × Json)) (k : String) : Bool :=
  match fields.lookup k with
  | none => true
  | some .null => true
  | some v => isStr v

/-- An optional (non-nullable) string field. -/
def optStr (fields : List (String × Json)) (k : String) : Bool :=
  match fields.lookup k with
  | none => true
  | some v => isStr v

/-- The `due` sub-object of `todoistTaskSchema`. -/
def validateDue : Option Json → Bool
  | none => true
  | some .null => true
  | some (.obj f) =>
      reqField f "date" isStr && reqField f "string" isStr && optStr f "datetime" &&
        optStr f "timezone" && reqField f "is_recurring" isBool
  | some _ => false

/-- `todoistTaskSchema` (`src/unnamed/part_008`) as a checker. -/
def validateTask : Json → Bool
  | .obj fields =>
      reqField fields "id" isStr && reqField fields "project_id" isStr &&
        optNullableStr fields "section_id" && reqField fields "content" isStr &&
        reqField fields "description" isStr && reqField fields "is_completed" isBool &&
        reqField fields "labels" isStrArr && optNullableStr fields "parent_id" &&
        reqField fields "order" isNum && reqField fields "priority" isNum &&
        validateDue (fields.lookup "due") && reqField fields "url" isStr &&
        reqField fields "comment_count" isNum && reqField fields "created_at" isStr &&
        reqField fields "creator_id" isStr && optNullableStr fields "assignee_id" &&
        optNullableStr fields "assigner_id"
  | _ => false

/-- `z.array(todoistTaskSchema)` as a checker. -/
def validateTaskArray : Json → Bool
  | .arr xs => xs.all validateTask
  | _ => false

/-- `todoistProjectSchema` (`src/unnamed/part_008`) as a checker. -/
def validateProject : Json → Bool
  | .obj f =>
      reqField f "id" isStr && reqField f "name" isStr &&
        reqField f "comment_count" isNum && reqField f "order" isNum &&
        reqField f "color" isStr && reqField f "is_shared" isBool &&
        reqField f "is_favorite" isBool && optNullableStr f "parent_id" &&
        reqField f "is_inbox_project" isBool && reqField f "is_team_inbox" isBool &&
        reqField f "view_style" isStr && reqField f "url" isStr
  | _ => false

/-- `todoistSectionSchema` (`src/unnamed/part_008`) as a checker. -/
def validateSection : Json → Bool
  | .obj f =>
      reqField f "id" isStr && reqField f "project_id" isStr &&
        reqField f "order" isNum && reqField f "name" isStr
  | _ => false

/-- The `attachment` sub-object of `todoistCommentSchema`
(`.nullable().optional()`). -/
def validateAttachment : Option Json → Bool
  | none => true
  | some .null => true
  | some (.obj f) =>
      reqField f "file_name" isStr && reqField f "file_type" isStr &&
        reqField f "file_url" isStr && reqField f "resource_type" isStr
  | some _ => false

/-- `todoistCommentSchema` (`src/unnamed/part_008`) as a checker. -/
def validateComment : Json → Bool
  | .obj f =>
      reqField f "id" isStr && optNullableStr f "task_id" &&
        optNullableStr f "project_id" && reqField f "content" isStr &&
        reqField f "posted_at" isStr && validateAttachment (f.lookup "attachment")
  | _ => false

/-- `todoistLabelSchema` (`src/unnamed/part_008`) as a checker. -/
def validateLabel : Json → Bool
  | .obj f =>
      reqField f "id" isStr && reqField f "name" isStr && reqField f "color" isStr &&
        reqField f "order" isNum && reqField f "is_favorite" isBool
  | _ => false

/-- `z.array(schema)` as a checker. -/
def validateArrayOf (check : Json → Bool) : Json → Bool
  | .arr xs => xs.all check
  | _ => false

/-- The response schema each todoist operation parses the request result
with, read off the source (`src/unnamed/part_008`): the `get`, `getAll`,
`create` and `update` operations parse with their entity schema
(`z.array(...)` for `getAll`); `closeTask`, `reopenTask` and the `delete`
operations return `todoistRequest`'s result directly (`none`). -/
def todoistResponseSchema : TodoistOp → Option (Json → Bool)
  | .getAllTasks => some validateTaskArray
  | .getTask => some validateTask
  | .createTask => some validateTask
  | .updateTask => some validateTask
  | .closeTask => none
  | .reopenTask => none
  | .deleteTask => none
  | .getAllProjects => some (validateArrayOf validateProject)
  | .getProject => some validateProject
  | .createProject => some validateProject
  | .updateProject => some validateProject
  | .deleteProject => none
  | .getAllSections => some (validateArrayOf validateSection)
  | .getSection => some validateSection
  | .createSection => some validateSection
  | .updateSection => some validateSection
  | .deleteSection => none
  | .getAllComments => some (validateArrayOf validateComment)
  | .getComment => some validateComment
  | .createComment => some validateComment
  | .updateComment => some validateComment
  | .deleteComment => none
  | .getAllLabels => some (validateArrayOf validateLabel)
  | .getLabel => some validateLabel
  | .createLabel => some validateLabel
  | .updateLabel => some validateLabel
  | .deleteLabel => none

/-- Response handling of every todoist operation
(`return <schema>.parse(await todoistRequest(...))` for the operations
with a response schema, which throws on mismatch, and
`return todoistRequest(...)` for the rest). -/
def todoistOpHandleResponse (op : TodoistOp) (r : HttpResponse) : Except String Json :=
  match todoistRequest r with
  | .error e => .error e
  | .ok v =>
      match todoistResponseSchema op with
      | some check => if check v then .ok v else .error "ZodError"
      | none => .ok v

/-! ## Twitter search (`searchTwitter`) -/

/-- The `legacy` payload of a raw tweet entry. -/
structure RawLegacy where
  full_text : Option String
  created_at : Option String
  favorite_count : Option Nat
  retweet_count : Option Nat
  reply_count : Option Nat
  media : Option (List String)
  deriving DecidableEq, Repr

/-- The `legacy` payload of the tweet's author. -/
structure RawUser where
  name : Option String
  screen_name : Option String
  deriving DecidableEq, Repr

/-- A raw `tweet_results.result` node: its `__typename`, `rest_id`, the
wrapped inner tweet (for `TweetWithVisibilityResults`), the `legacy` and
user payloads, and the parsed view count. -/
inductive RawResult
  | node (typename : String) (restId : String) (inner : Option RawResult)
      (legacy : Option RawLegacy) (user : Option RawUser) (viewsCount : Option Nat)
  deriving Repr

/-- One entry of the upstream search response ( `entry.content?.itemContent?.tweet_results?.result`). -/
structure RawEntry where
  result : Option RawResult
  deriving Repr

/-- A parsed tweet. -/
structure Tweet where
  tweet_id : String
  text : String
  user_name : String
  user_screen_name : String
  created_at : String
  likes : Nat
  retweets : Nat
  replies : Nat
  views : Nat
  media : List String
  deriving DecidableEq, Repr

/-- The `TweetWithVisibilityResults` unwrap step of `searchTwitter`. -/
def unwrapResult : RawResult → Option RawResult
  | RawResult.node tn rid inner l u v =>
      if tn = "TweetWithVisibilityResults" then inner
      else some (.node tn rid inner l u v)

/-- Parsing of one entry by `searchTwitter` (`src/unnamed/part_001`):
missing tweet result, wrong typename after unwrapping, or missing
legacy/user data skips the entry. -/
def parseEntry (e : RawEntry) : Option Tweet :=
  match e.result with
  | none => none
  | some r0 =>
      match unwrapResult r0 with
      | none => none
      | some (RawResult.node tn rid _ olegacy ouser oviews) =>
          if tn = "Tweet" then
            match olegacy, ouser with
            | some l, some u =>
                some { tweet_id := rid, text := l.full_text.getD "",
                       user_name := u.name.getD "",
                       user_screen_name := u.screen_name.getD "",
                       created_at := l.created_at.getD "",
                       likes := l.favorite_count.getD 0,
                       retweets := l.retweet_count.getD 0,
                       replies := l.reply_count.getD 0,
                       views := oviews.getD 0, media := l.media.getD [] }
            | _, _ => none
          else none

/-- Strip a literal prefix from a character list, returning the remainder. -/
def stripChars : List Char → List Char → Option (List Char)
  | [], l => some l
  | _, [] => none
  | p :: ps, c :: cs => if c = p then stripChars ps cs else none

/-- The regex `https?:\/\/[^\s]+` of `searchTwitter` matches at this
position: the scheme followed by at least one non-whitespace character. -/
def urlStartHere (l : List Char) : Bool :=
  (match stripChars "http://".data l with
   | some (c :: _) => !c.isWhitespace
   | _ => false) ||
  (match stripChars "https://".data l with
   | some (c :: _) => !c.isWhitespace
   | _ => false)

/-- Whether the regex matches anywhere in the character list. -/
def hasUrlChars : List Char → Bool
  | [] => false
  | c :: rest => urlStartHere (c :: rest) || hasUrlChars rest

/-- `text.match(/https?:\/\/[^\s]+/)` of `searchTwitter`. -/
def hasUrl (s : String) : Bool :=
  hasUrlChars s.data

/-- The filter parameters of `searchTwitter` relevant here. -/
structure SearchParams where
  removePostsWithLinks : Bool
  removePostsWithMedia : Bool
  deriving DecidableEq, Repr

/-- The parsing and local filtering pipeline of `searchTwitter`
(`src/unnamed/part_001`): parse entries (skipping malformed ones), then
drop tweets with links if requested, then drop tweets with media if
requested. -/
def searchTwitterResults (params : SearchParams) (entries : List RawEntry) : List Tweet :=
  let results := entries.filterMap parseEntry
  let results :=
    if params.removePostsWithLinks then results.filter (fun t => !hasUrl t.text)
    else results
  let results :=
    if params.removePostsWithMedia then results.filter (fun t => t.media.isEmpty)
    else results
  results

/-- A well-formed sample entry used to instantiate the search theorems. -/
def sampleGoodEntry : RawEntry :=
  ⟨some (.node "Tweet" "1" none
    (some ⟨some "hello world", some "d", some 1, some 2, some 3, some []⟩)
    (some ⟨some "n", some "s"⟩) (some 5))⟩

/-- A sample entry whose text contains a URL. -/
def sampleLinkEntry : RawEntry :=
  ⟨some (.node "Tweet" "2" none
    (some ⟨some "see https://x.co", some "d", some 1, some 2, some 3, some []⟩)
    (some ⟨some "n", some "s"⟩) (some 5))⟩

/-- The tweet `sampleGoodEntry` parses to. -/
def sampleGoodTweet : Tweet :=
  ⟨"1", "hello world", "n", "s", "d", 1, 2, 3, 5, []⟩

/-! ## Theorems -/

lemma tickPhase_not_elapsed (cfg : BreakerConfig) (st : CircuitState) (now : Nat)
    (hc : now < st.openedAt + cfg.cooldown) :
    tickPhase cfg st now = st := by
  unfold tickPhase
  rw [if_neg]
  rintro ⟨-, h⟩
  omega

lemma tickPhase_elapsed (cfg : BreakerConfig) (st : CircuitState) (now : Nat)
    (hp : st.phase = .opened) (hc : st.openedAt + cfg.cooldown ≤ now) :
    tickPhase cfg st now = { st with phase := .halfOpen } := by
  unfold tickPhase
  rw [if_pos ⟨hp, hc⟩]

lemma breakerStep_open_fast_fail (cfg : BreakerConfig) (st : CircuitState) (now : Nat)
    (u : Bool) (hp : st.phase = .opened) (hc : now < st.openedAt + cfg.cooldown) :
    breakerStep cfg st now u = ⟨.circuitOpenError, false, st⟩ := by
  unfold breakerStep
  rw [tickPhase_not_elapsed cfg st now hc]
  simp only [hp]

lemma tickPhase_of_ne_opened (cfg : BreakerConfig) (st : CircuitState) (now : Nat)
    (hp : st.phase ≠ .opened) : tickPhase cfg st now = st := by
  unfold tickPhase
  rw [if_neg]
  rintro ⟨h1, -⟩
  exact hp h1

lemma breakerStep_trial_success (cfg : BreakerConfig) (st : CircuitState) (now : Nat)
    (hp : st.phase = .opened) (hc : st.openedAt + cfg.cooldown ≤ now) :
    breakerStep cfg st now true =
      ⟨.success, true, { phase := .closed, failureCount := 0, openedAt := st.openedAt }⟩ := by
  unfold breakerStep
  rw [tickPhase_elapsed cfg st now hp hc]
  rfl

lemma breakerStep_trial_failure (cfg : BreakerConfig) (st : CircuitState) (now : Nat)
    (hp : st.phase = .opened) (hc : st.openedAt + cfg.cooldown ≤ now) :
    breakerStep cfg st now false =
      ⟨.failure, true, { phase := .opened, failureCount := st.failureCount, openedAt := now }⟩ := by
  unfold breakerStep
  rw [tickPhase_elapsed cfg st now hp hc]
  rfl

lemma breakerStep_fail_stays_opened (cfg : BreakerConfig) (st : CircuitState) (t : Nat)
    (h : st.phase = .opened ∨ st.phase = .halfOpen) :
    (breakerStep cfg st t false).state.phase = .opened := by
  rcases h with h | h
  · by_cases hc : st.openedAt + cfg.cooldown ≤ t
    · rw [breakerStep_trial_failure cfg st t h hc]
    · rw [breakerStep_open_fast_fail cfg st t false h (by omega)]
      exact h
  · unfold breakerStep
    rw [tickPhase_of_ne_opened cfg st t (by rw [h]; exact fun hh => by cases hh)]
    simp only [h]
    rfl

lemma applyFailures_stays_opened (cfg : BreakerConfig) :
    ∀ (ts : List Nat) (st : CircuitState), st.phase = .opened →
      (applyFailures cfg st ts).phase = .opened
  | [], _, h => h
  | t :: ts, st, h =>
      applyFailures_stays_opened cfg ts _ (breakerStep_fail_stays_opened cfg st t (Or.inl h))

lemma breakerStep_closed_fail (cfg : BreakerConfig) (st : CircuitState) (t : Nat)
    (hp : st.phase = .closed) :
    (breakerStep cfg st t false).state =
      if cfg.threshold ≤ st.failureCount + 1 then
        { phase := .opened, failureCount := st.failureCount + 1, openedAt := t }
      else
        { st with failureCount := st.failureCount + 1 } := by
  unfold breakerStep
  rw [tickPhase_of_ne_opened cfg st t (by rw [hp]; exact fun hh => by cases hh)]
  simp only [hp]
  by_cases h : cfg.threshold ≤ st.failureCount + 1 <;> simp [h]

lemma applyFailures_closed_opens (cfg : BreakerConfig) :
    ∀ (ts : List Nat) (st : CircuitState), st.phase = .closed →
      cfg.threshold ≤ st.failureCount + ts.length → st.failureCount < cfg.threshold →
      (applyFailures cfg st ts).phase = .opened := by
  intro ts
  induction ts with
  | nil =>
      intro st _ h1 h2
      simp only [List.length_nil] at h1
      omega
  | cons t rest ih =>
      intro st hp h1 h2
      show (applyFailures cfg (breakerStep cfg st t false).state rest).phase = .opened
      rw [breakerStep_closed_fail cfg st t hp]
      by_cases h : cfg.threshold ≤ st.failureCount + 1
      · rw [if_pos h]
        exact applyFailures_stays_opened cfg rest _ rfl
      · rw [if_neg h]
        refine ih _ hp ?_ ?_
        · show cfg.threshold ≤ st.failureCount + 1 + rest.length
          simp only [List.length_cons] at h1
          omega
        · show st.failureCount + 1 < cfg.threshold
          omega

/-- C1: circuit-breaker lifecycle.  Once the rolling failure count crosses
the configured threshold the circuit is `OPEN`; while the cooldown has not
elapsed every call fails immediately with `CircuitOpenError` without
invoking the underlying callable and leaves the state unchanged; after the
cooldown elapses the circuit becomes `HALF_OPEN` and admits exactly one
trial call, whose success closes the circuit and resets the counter and
whose failure reopens it and restarts the cooldown (so the next call
inside the restarted cooldown again fails fast without invocation). -/
theorem C1_circuit_breaker_lifecycle :
    (∀ (cfg : BreakerConfig) (st : CircuitState) (now : Nat) (u : Bool),
      st.phase = .opened → now < st.openedAt + cfg.cooldown →
      breakerStep cfg st now u = ⟨.circuitOpenError, false, st⟩) ∧
    (∀ (cfg : BreakerConfig) (ts : List Nat),
      1 ≤ cfg.threshold → ts.length = cfg.threshold →
      (applyFailures cfg CircuitState.init ts).phase = .opened) ∧
    (∀ (cfg : BreakerConfig) (st : CircuitState) (now : Nat),
      st.phase = .opened → st.openedAt + cfg.cooldown ≤ now →
      (tickPhase cfg st now).phase = .halfOpen ∧
      breakerStep cfg st now true =
        ⟨.success, true, { phase := .closed, failureCount := 0, openedAt := st.openedAt }⟩ ∧
      breakerStep cfg st now false =
        ⟨.failure, true, { phase := .opened, failureCount := st.failureCount, openedAt := now }⟩) ∧
    (∀ (cfg : BreakerConfig) (st : CircuitState) (now now2 : Nat) (u : Bool),
      st.phase = .opened → st.openedAt + cfg.cooldown ≤ now → now2 < now + cfg.cooldown →
      (breakerStep cfg (breakerStep cfg st now false).state now2 u).outcome = .circuitOpenError ∧
      (breakerStep cfg (breakerStep cfg st now false).state now2 u).invoked = false) := by
  refine ⟨?_, ?_, ?_, ?_⟩
  · intro cfg st now u hp hc
    exact breakerStep_open_fast_fail cfg st now u hp hc
  · intro cfg ts h1 hlen
    refine applyFailures_closed_opens cfg ts CircuitState.init rfl ?_ ?_
    · show cfg.threshold ≤ 0 + ts.length
      omega
    · show 0 < cfg.threshold
      omega
  · intro cfg st now hp hc
    refine ⟨?_, breakerStep_trial_success cfg st now hp hc,
      breakerStep_trial_failure cfg st now hp hc⟩
    rw [tickPhase_elapsed cfg st now hp hc]
  · intro cfg st now now2 u hp hc hc2
    rw [breakerStep_trial_failure cfg st now hp hc]
    rw [breakerStep_open_fast_fail cfg _ now2 u rfl (by simpa using hc2)]
    exact ⟨rfl, rfl⟩

/-- C1 witness: the lifecycle theorem applied at a concrete breaker
configuration (threshold 3, cooldown 10). -/
theorem C1_circuit_breaker_lifecycle_witness :
    breakerStep ⟨3, 10, 30000⟩ ⟨.opened, 3, 100⟩ 105 true =
      ⟨.circuitOpenError, false, ⟨.opened, 3, 100⟩⟩ ∧
    (applyFailures ⟨3, 10, 30000⟩ CircuitState.init [1, 2, 3]).phase = .opened ∧
    (tickPhase ⟨3, 10, 30000⟩ ⟨.opened, 3, 100⟩ 111).phase = .halfOpen ∧
    breakerStep ⟨3, 10, 30000⟩ ⟨.opened, 3, 100⟩ 111 true = ⟨.success, true, ⟨.closed, 0, 100⟩⟩ ∧
    breakerStep ⟨3, 10, 30000⟩ ⟨.opened, 3, 100⟩ 111 false = ⟨.failure, true, ⟨.opened, 3, 111⟩⟩ ∧
    (breakerStep ⟨3, 10, 30000⟩
      (breakerStep ⟨3, 10, 30000⟩ ⟨.opened, 3, 100⟩ 111 false).state 115 true).outcome =
        .circuitOpenError := by
  obtain ⟨h1, h2, h3, h4⟩ := C1_circuit_breaker_lifecycle
  obtain ⟨h3a, h3b, h3c⟩ := h3 ⟨3, 10, 30000⟩ ⟨.opened, 3, 100⟩ 111 rfl (by decide)
  exact ⟨h1 ⟨3, 10, 30000⟩ ⟨.opened, 3, 100⟩ 105 true rfl (by decide),
    h2 ⟨3, 10, 30000⟩ [1, 2, 3] (by decide) rfl, h3a, h3b, h3c,
    (h4 ⟨3, 10, 30000⟩ ⟨.opened, 3, 100⟩ 111 115 true rfl (by decide) (by decide)).1⟩

lemma mem_of_getLastMem {α : Type} {l : List α} {x : α} (hx : x ∈ l.getLast?) : x ∈ l := by
  obtain ⟨hne, hxe⟩ := List.mem_getLast?_eq_getLast hx
  rw [hxe]
  exact List.getLast_mem hne

lemma canAdmit_iff (cfg : LimiterConfig) (st : LimiterSim) (t : Nat) :
    canAdmit cfg st t = true ↔
      ((∀ l, st.lastCall = some l → l + cfg.minTime ≤ t) ∧ 1 ≤ st.tokens) := by
  unfold canAdmit
  cases h : st.lastCall with
  | none => simp [h]
  | some l => simp [h]

lemma refillStep_no (cfg : LimiterConfig) (st : LimiterSim) (t : Nat)
    (hr : isRefillTick cfg t = false) : refillStep cfg st t = st := by
  simp [refillStep, hr]

lemma refillStep_yes (cfg : LimiterConfig) (st : LimiterSim) (t : Nat)
    (hr : isRefillTick cfg t = true) :
    refillStep cfg st t =
      { st with tokens := min (st.tokens + cfg.refreshAmount) cfg.capacity } := by
  simp [refillStep, hr]

lemma refillStep_queue (cfg : LimiterConfig) (st : LimiterSim) (t : Nat) :
    (refillStep cfg st t).queue = st.queue := by
  unfold refillStep
  split <;> rfl

lemma refillStep_admitted (cfg : LimiterConfig) (st : LimiterSim) (t : Nat) :
    (refillStep cfg st t).admitted = st.admitted := by
  unfold refillStep
  split <;> rfl

lemma refillStep_lastCall (cfg : LimiterConfig) (st : LimiterSim) (t : Nat) :
    (refillStep cfg st t).lastCall = st.lastCall := by
  unfold refillStep
  split <;> rfl

lemma admitStep_empty (cfg : LimiterConfig) (st : LimiterSim) (t : Nat)
    (hq : st.queue = []) : admitStep cfg st t = st := by
  simp only [admitStep, hq]

lemma admitStep_accept (cfg : LimiterConfig) (st : LimiterSim) (t : Nat) (r : Nat)
    (rest : List Nat) (hq : st.queue = r :: rest) (hca : canAdmit cfg st t = true) :
    admitStep cfg st t =
      { tokens := st.tokens - 1, lastCall := some t, queue := rest,
        admitted := st.admitted ++ [(r, t)] } := by
  simp only [admitStep, hq]
  rw [if_pos hca]

lemma admitStep_delay (cfg : LimiterConfig) (st : LimiterSim) (t : Nat) (r : Nat)
    (rest : List Nat) (hq : st.queue = r :: rest) (hca : canAdmit cfg st t = false) :
    admitStep cfg st t = st := by
  simp only [admitStep, hq]
  rw [if_neg (by simp [hca])]

lemma admitStep_conserve (cfg : LimiterConfig) (st : LimiterSim) (t : Nat) :
    (admitStep cfg st t).queue.length + (admitStep cfg st t).admitted.length
      = st.queue.length + st.admitted.length := by
  cases hq : st.queue with
  | nil => rw [admitStep_empty cfg st t hq, hq]
  | cons r rest =>
      by_cases hca : canAdmit cfg st t = true
      · rw [admitStep_accept cfg st t r rest hq hca]
        simp [hq]
        omega
      · rw [admitStep_delay cfg st t r rest hq (by simpa using hca), hq]

lemma limTick_conserve (cfg : LimiterConfig) (st : LimiterSim) (t : Nat) :
    (limTick cfg st t).queue.length + (limTick cfg st t).admitted.length
      = st.queue.length + st.admitted.length := by
  unfold limTick
  rw [admitStep_conserve, refillStep_queue, refillStep_admitted]

lemma limRun_conserve (cfg : LimiterConfig) :
    ∀ (n : Nat) (st : LimiterSim) (t0 : Nat),
      (limRun cfg st t0 n).queue.length + (limRun cfg st t0 n).admitted.length
        = st.queue.length + st.admitted.length
  | 0, _, _ => rfl
  | n + 1, st, t0 => by
      show (limRun cfg (limTick cfg st t0) (t0 + 1) n).queue.length
          + (limRun cfg (limTick cfg st t0) (t0 + 1) n).admitted.length
        = st.queue.length + st.admitted.length
      rw [limRun_conserve cfg n (limTick cfg st t0) (t0 + 1)]
      exact limTick_conserve cfg st t0

lemma admitStep_measure (cfg : LimiterConfig) (st : LimiterSim) (t : Nat) :
    (admitStep cfg st t).admitted.length + (admitStep cfg st t).tokens
      ≤ st.admitted.length + st.tokens := by
  cases hq : st.queue with
  | nil => rw [admitStep_empty cfg st t hq]
  | cons r rest =>
      by_cases hca : canAdmit cfg st t = true
      · have htok := ((canAdmit_iff cfg st t).1 hca).2
        rw [admitStep_accept cfg st t r rest hq hca]
        simp
        omega
      · rw [admitStep_delay cfg st t r rest hq (by simpa using hca)]


lemma limTick_measure (cfg : LimiterConfig) (st : LimiterSim) (t : Nat)
    (hr : isRefillTick cfg t = false) :
    (limTick cfg st t).admitted.length + (limTick cfg st t).tokens
      ≤ st.admitted.length + st.tokens := by
  unfold limTick
  rw [refillStep_no cfg st t hr]
  exact admitStep_measure cfg st t

lemma limRun_window_measure (cfg : LimiterConfig) :
    ∀ (n : Nat) (st : LimiterSim) (t0 : Nat),
      (∀ k, k < n → isRefillTick cfg (t0 + k) = false) →
      (limRun cfg st t0 n).admitted.length + (limRun cfg st t0 n).tokens
        ≤ st.admitted.length + st.tokens := by
  intro n
  induction n with
  | zero => intro st t0 _; exact le_refl _
  | succ m ih =>
      intro st t0 h
      show (limRun cfg (limTick cfg st t0) (t0 + 1) m).admitted.length + _ ≤ _
      calc (limRun cfg (limTick cfg st t0) (t0 + 1) m).admitted.length
            + (limRun cfg (limTick cfg st t0) (t0 + 1) m).tokens
          ≤ (limTick cfg st t0).admitted.length + (limTick cfg st t0).tokens := by
            refine ih (limTick cfg st t0) (t0 + 1) ?_
            intro k hk
            have := h (k + 1) (by omega)
            rwa [show t0 + (k + 1) = t0 + 1 + k by omega] at this
        _ ≤ st.admitted.length + st.tokens := by
            refine limTick_measure cfg st t0 ?_
            simpa using h 0 (by omega)

lemma refillStep_SepInv (cfg : LimiterConfig) (st : LimiterSim) (t : Nat)
    (h : SepInv cfg st) : SepInv cfg (refillStep cfg st t) := by
  unfold refillStep
  split
  · exact h
  · exact h

lemma admitStep_SepInv (cfg : LimiterConfig) (st : LimiterSim) (t : Nat)
    (hinv : SepInv cfg st) : SepInv cfg (admitStep cfg st t) := by
  cases hq : st.queue with
  | nil => rwa [admitStep_empty cfg st t hq]
  | cons r rest =>
      by_cases hca : canAdmit cfg st t = true
      · obtain ⟨hinterval, htok⟩ := (canAdmit_iff cfg st t).1 hca
        obtain ⟨hchain, hlast⟩ := hinv
        rw [admitStep_accept cfg st t r rest hq hca]
        constructor
        · show List.Chain' (sepRel cfg) (st.admitted ++ [(r, t)])
          cases hl : st.lastCall with
          | none =>
              have hemp : st.admitted = [] := by
                rw [hl] at hlast
                exact hlast
              rw [hemp]
              exact List.chain'_singleton _
          | some l =>
              have hle : ∀ x ∈ st.admitted, x.2 ≤ l := by
                rw [hl] at hlast
                exact hlast
              refine List.Chain'.append hchain (List.chain'_singleton _) ?_
              intro x hx y hy
              have hxmem : x ∈ st.admitted := mem_of_getLastMem hx
              have hyt : (r, t) = y := by simpa using hy
              rw [← hyt]
              show x.2 + cfg.minTime ≤ t
              have := hle x hxmem
              have := hinterval l hl
              omega
        · show ∀ x ∈ st.admitted ++ [(r, t)], x.2 ≤ t
          intro x hx
          rcases List.mem_append.mp hx with hx | hx
          · cases hl : st.lastCall with
            | none =>
                rw [hl] at hlast
                rw [hlast] at hx
                cases hx
            | some l =>
                rw [hl] at hlast
                have := hlast x hx
                have := hinterval l hl
                omega
          · have : x = (r, t) := by simpa using hx
            rw [this]
      · rwa [admitStep_delay cfg st t r rest hq (by simpa using hca)]

lemma limTick_SepInv (cfg : LimiterConfig) (st : LimiterSim) (t : Nat)
    (h : SepInv cfg st) : SepInv cfg (limTick cfg st t) :=
  admitStep_SepInv cfg _ t (refillStep_SepInv cfg st t h)

lemma limRun_SepInv (cfg : LimiterConfig) :
    ∀ (n : Nat) (st : LimiterSim) (t0 : Nat), SepInv cfg st →
      SepInv cfg (limRun cfg st t0 n)
  | 0, _, _, h => h
  | n + 1, st, t0, h =>
      limRun_SepInv cfg n (limTick cfg st t0) (t0 + 1) (limTick_SepInv cfg st t0 h)

/-- C2: rate limiter.  A call is admitted only when the minimum inter-call
interval has elapsed since the previous admitted call and the reservoir
holds at least one token, which the admission consumes; a call that cannot
be admitted stays queued unchanged (delayed); the reservoir refills by a
fixed amount on a fixed interval (capped at capacity) independent of
consumption; over any run no request is ever dropped (queued + admitted is
conserved); admissions are always separated by at least the minimum
interval; and within one refill window the number of admissions never
exceeds the configured reservoir count. -/
theorem C2_rate_limiter_admission :
    (∀ (cfg : LimiterConfig) (st : LimiterSim) (t : Nat),
      canAdmit cfg st t = true ↔
        ((∀ l, st.lastCall = some l → l + cfg.minTime ≤ t) ∧ 1 ≤ st.tokens)) ∧
    (∀ (cfg : LimiterConfig) (st : LimiterSim) (t r : Nat) (rest : List Nat),
      st.queue = r :: rest → isRefillTick cfg t = false →
      (canAdmit cfg st t = true →
        limTick cfg st t =
          { tokens := st.tokens - 1, lastCall := some t, queue := rest,
            admitted := st.admitted ++ [(r, t)] }) ∧
      (canAdmit cfg st t = false → limTick cfg st t = st)) ∧
    (∀ (cfg : LimiterConfig) (st : LimiterSim) (t : Nat),
      isRefillTick cfg t = true →
      refillStep cfg st t =
        { st with tokens := min (st.tokens + cfg.refreshAmount) cfg.capacity }) ∧
    (∀ (cfg : LimiterConfig) (st : LimiterSim) (t0 n : Nat),
      (limRun cfg st t0 n).queue.length + (limRun cfg st t0 n).admitted.length
        = st.queue.length + st.admitted.length) ∧
    (∀ (cfg : LimiterConfig) (st : LimiterSim) (t0 n : Nat),
      st.admitted = [] → st.lastCall = none →
      List.Chain' (sepRel cfg) (limRun cfg st t0 n).admitted) ∧
    (∀ (cfg : LimiterConfig) (st : LimiterSim) (t0 n : Nat),
      st.tokens ≤ cfg.capacity →
      (∀ k, k < n → isRefillTick cfg (t0 + k) = false) →
      (limRun cfg st t0 n).admitted.length ≤ st.admitted.length + cfg.capacity) := by
  refine ⟨canAdmit_iff, ?_, refillStep_yes, ?_, ?_, ?_⟩
  · intro cfg st t r rest hq hr
    constructor
    · intro hca
      unfold limTick
      rw [refillStep_no cfg st t hr]
      exact admitStep_accept cfg st t r rest hq hca
    · intro hca
      unfold limTick
      rw [refillStep_no cfg st t hr]
      exact admitStep_delay cfg st t r rest hq hca
  · intro cfg st t0 n
    exact limRun_conserve cfg n st t0
  · intro cfg st t0 n hadm hlc
    have hinv : SepInv cfg st := by
      constructor
      · rw [hadm]
        exact List.chain'_nil
      · show (match st.lastCall with
          | none => st.admitted = []
          | some l => ∀ x ∈ st.admitted, x.2 ≤ l)
        rw [hlc]
        exact hadm
    exact (limRun_SepInv cfg n st t0 hinv).1
  · intro cfg st t0 n hcap hwin
    have := limRun_window_measure cfg n st t0 hwin
    omega

/-- C2 witness: the admission theorem applied at a concrete limiter
(minimum interval 2, reservoir capacity 3, refill 3 tokens every 100
ticks) and concrete call queues. -/
theorem C2_rate_limiter_admission_witness :
    limTick ⟨2, 3, 3, 100⟩ ⟨3, some 4, [10, 20], []⟩ 5 = ⟨3, some 4, [10, 20], []⟩ ∧
    limTick ⟨2, 3, 3, 100⟩ ⟨3, some 4, [10, 20], []⟩ 6 = ⟨2, some 6, [20], [(10, 6)]⟩ ∧
    (limRun ⟨2, 3, 3, 100⟩ ⟨3, none, [10, 20, 30, 40, 50], []⟩ 1 7).queue.length
      + (limRun ⟨2, 3, 3, 100⟩ ⟨3, none, [10, 20, 30, 40, 50], []⟩ 1 7).admitted.length = 5 ∧
    List.Chain' (sepRel ⟨2, 3, 3, 100⟩)
      (limRun ⟨2, 3, 3, 100⟩ ⟨3, none, [10, 20, 30, 40, 50], []⟩ 1 7).admitted ∧
    (limRun ⟨2, 3, 3, 100⟩ ⟨3, none, [10, 20, 30, 40, 50], []⟩ 1 7).admitted.length ≤ 3 := by
  obtain ⟨h1, h2, h3, h4, h5, h6⟩ := C2_rate_limiter_admission
  refine ⟨(h2 ⟨2, 3, 3, 100⟩ ⟨3, some 4, [10, 20], []⟩ 5 10 [20] rfl (by decide)).2 (by decide),
    (h2 ⟨2, 3, 3, 100⟩ ⟨3, some 4, [10, 20], []⟩ 6 10 [20] rfl (by decide)).1 (by decide),
    h4 ⟨2, 3, 3, 100⟩ ⟨3, none, [10, 20, 30, 40, 50], []⟩ 1 7,
    h5 ⟨2, 3, 3, 100⟩ ⟨3, none, [10, 20, 30, 40, 50], []⟩ 1 7 rfl rfl, ?_⟩
  have := h6 ⟨2, 3, 3, 100⟩ ⟨3, none, [10, 20, 30, 40, 50], []⟩ 1 7 (by decide) (by decide)
  simpa using this

/-- C3: every protected external operation — `generateGamma`,
`getGenerationStatus`, `waitForCompletion`, and every exported todoist
operation — is the rate-limited wrapping of the circuit-breaker-wrapped
internal function, and an invocation passes the gates in the order rate
limit, circuit breaker, timeout, real call. -/
theorem C3_resilience_layer_order :
    (generateGamma = withRateLimit generateGammaWithBreaker.fire gammaRateLimiter ∧
      generateGamma =
        [Layer.rateLimitGate, Layer.circuitBreakerGate, Layer.timeoutGuard,
          Layer.underlyingCall]) ∧
    (getGenerationStatus = withRateLimit getGenerationStatusWithBreaker.fire gammaRateLimiter ∧
      getGenerationStatus =
        [Layer.rateLimitGate, Layer.circuitBreakerGate, Layer.timeoutGuard,
          Layer.underlyingCall]) ∧
    (waitForCompletionExported =
        withRateLimit waitForCompletionWithBreaker.fire gammaRateLimiter ∧
      waitForCompletionExported =
        [Layer.rateLimitGate, Layer.circuitBreakerGate, Layer.timeoutGuard,
          Layer.underlyingCall]) ∧
    (∀ op : TodoistOp,
      todoistExported op = withRateLimit (todoistWithBreaker op).fire todoistRateLimiter ∧
      todoistExported op =
        [Layer.rateLimitGate, Layer.circuitBreakerGate, Layer.timeoutGuard,
          Layer.underlyingCall]) :=
  ⟨⟨rfl, rfl⟩, ⟨rfl, rfl⟩, ⟨rfl, rfl⟩, fun _ => ⟨rfl, rfl⟩⟩

lemma runWhileAux_always {σ : Type} (cond : σ → Bool) (body : σ → σ)
    (hc : ∀ x, cond x = true) :
    ∀ (rem : Nat) (s : σ) (done : Nat),
      runWhileAux cond body rem s done = ⟨.error maxIterationsExceededError, done + rem⟩ := by
  intro rem
  induction rem with
  | zero =>
      intro s done
      simp [runWhileAux, hc s]
  | succ m ih =>
      intro s done
      show runWhileAux cond body (m + 1) s done = _
      simp only [runWhileAux, hc s, if_true]
      rw [ih (body s) (done + 1)]
      have h : done + 1 + m = done + (m + 1) := by omega
      rw [h]

lemma runWhileAux_iterations_le {σ : Type} (cond : σ → Bool) (body : σ → σ) :
    ∀ (rem : Nat) (s : σ) (done : Nat),
      (runWhileAux cond body rem s done).iterations ≤ done + rem := by
  intro rem
  induction rem with
  | zero =>
      intro s done
      by_cases h : cond s = true <;> simp [runWhileAux, h]
  | succ m ih =>
      intro s done
      by_cases h : cond s = true
      · show (runWhileAux cond body (m + 1) s done).iterations ≤ _
        simp only [runWhileAux, h, if_true]
        have := ih (body s) (done + 1)
        omega
      · show (runWhileAux cond body (m + 1) s done).iterations ≤ _
        simp only [runWhileAux, h]
        simp

lemma runWhileAux_guard_false {σ : Type} (cond : σ → Bool) (body : σ → σ)
    (rem : Nat) (s : σ) (done : Nat) (h : cond s = false) :
    runWhileAux cond body rem s done = ⟨.ok s, done⟩ := by
  cases rem <;> simp [runWhileAux, h]

lemma waitFrom_pending (poll : Nat → GenStatus) (mx : Nat)
    (hp : ∀ i, poll i = .pending) :
    ∀ (fuel i : Nat),
      waitFrom poll mx fuel i =
        ⟨.error ("Generation timed out after " ++ toString mx ++ " retries"), i + fuel⟩ := by
  intro fuel
  induction fuel with
  | zero =>
      intro i
      simp [waitFrom]
  | succ m ih =>
      intro i
      show waitFrom poll mx (m + 1) i = _
      simp only [waitFrom, hp i]
      rw [ih (i + 1)]
      have h : i + 1 + m = i + (m + 1) := by omega
      rw [h]

lemma waitFrom_checks_le (poll : Nat → GenStatus) (mx : Nat) :
    ∀ (fuel i : Nat), (waitFrom poll mx fuel i).checks ≤ i + fuel := by
  intro fuel
  induction fuel with
  | zero =>
      intro i
      simp [waitFrom]
  | succ m ih =>
      intro i
      show (waitFrom poll mx (m + 1) i).checks ≤ _
      cases hp : poll i with
      | pending =>
          simp only [waitFrom, hp]
          have := ih (i + 1)
          omega
      | completed =>
          simp only [waitFrom, hp]
          show i + 1 ≤ i + (m + 1)
          omega
      | failed =>
          simp only [waitFrom, hp]
          show i + 1 ≤ i + (m + 1)
          omega

/-- C4: bounded loops.  A `while` node whose guard never becomes false
performs exactly its maximum-iteration count of iterations and then fails
with `MaxIterationsExceededError` (never looping forever); the iteration
count never exceeds the bound; the bound defaults to 100; the guard is
checked before the first iteration (a false guard runs zero iterations);
and `waitForCompletion` on an endpoint that always reports `pending`
performs exactly its maximum number of status checks and then throws the
terminal timeout error, never more than the maximum. -/
theorem C4_bounded_loops :
    (∀ (σ : Type) (cond : σ → Bool) (body : σ → σ) (s : σ) (mi : Nat),
      (∀ x, cond x = true) →
      runWhile cond body (some mi) s = ⟨.error maxIterationsExceededError, mi⟩) ∧
    (∀ (σ : Type) (cond : σ → Bool) (body : σ → σ) (s : σ),
      (∀ x, cond x = true) →
      runWhile cond body none s = ⟨.error maxIterationsExceededError, 100⟩) ∧
    defaultMaxIterations = 100 ∧
    (∀ (σ : Type) (cond : σ → Bool) (body : σ → σ) (mi : Option Nat) (s : σ),
      (runWhile cond body mi s).iterations ≤ mi.getD defaultMaxIterations) ∧
    (∀ (σ : Type) (cond : σ → Bool) (body : σ → σ) (mi : Option Nat) (s : σ),
      cond s = false → runWhile cond body mi s = ⟨.ok s, 0⟩) ∧
    (∀ (poll : Nat → GenStatus) (m : Option Nat),
      (∀ i, poll i = .pending) →
      waitForCompletionRun poll m =
        ⟨.error ("Generation timed out after " ++ toString (normMaxRetries m) ++ " retries"),
          normMaxRetries m⟩) ∧
    (∀ (poll : Nat → GenStatus) (m : Option Nat),
      (waitForCompletionRun poll m).checks ≤ normMaxRetries m) := by
  refine ⟨?_, ?_, rfl, ?_, ?_, ?_, ?_⟩
  · intro σ cond body s mi hc
    show runWhileAux cond body mi s 0 = _
    rw [runWhileAux_always cond body hc mi s 0]
    rw [Nat.zero_add]
  · intro σ cond body s hc
    show runWhileAux cond body defaultMaxIterations s 0 = _
    rw [runWhileAux_always cond body hc defaultMaxIterations s 0]
    rfl
  · intro σ cond body mi s
    have := runWhileAux_iterations_le cond body (mi.getD defaultMaxIterations) s 0
    simpa using this
  · intro σ cond body mi s h
    exact runWhileAux_guard_false cond body _ s 0 h
  · intro poll m hp
    show waitFrom poll (normMaxRetries m) (normMaxRetries m) 0 = _
    rw [waitFrom_pending poll (normMaxRetries m) hp (normMaxRetries m) 0]
    rw [Nat.zero_add]
  · intro poll m
    have := waitFrom_checks_le poll (normMaxRetries m) (normMaxRetries m) 0
    simpa using this

/-- C4 witness: a guard that never becomes false with `maxIterations 5`
runs exactly 5 iterations and fails with `MaxIterationsExceededError`,
and an always-`pending` generation with `maxRetries 3` times out after
exactly 3 status checks. -/
theorem C4_bounded_loops_witness :
    runWhile (fun _ : Nat => true) (fun s => s + 1) (some 5) 0 =
      ⟨.error maxIterationsExceededError, 5⟩ ∧
    runWhile (fun _ : Nat => true) (fun s => s + 1) none 0 =
      ⟨.error maxIterationsExceededError, 100⟩ ∧
    runWhile (fun s : Nat => decide (s < 0)) (fun s => s + 1) (some 5) 0 = ⟨.ok 0, 0⟩ ∧
    waitForCompletionRun (fun _ => .pending) (some 3) =
      ⟨.error "Generation timed out after 3 retries", 3⟩ ∧
    (waitForCompletionRun (fun _ => .pending) (some 3)).checks ≤ 3 := by
  obtain ⟨h1, h2, _, h4, h5, h6, h7⟩ := C4_bounded_loops
  exact ⟨h1 Nat _ _ 0 5 (fun _ => rfl), h2 Nat _ _ 0 (fun _ => rfl),
    h5 Nat _ _ (some 5) 0 (by decide), h6 _ (some 3) (fun _ => rfl),
    h7 _ (some 3)⟩

lemma lookup_iterEvents {β γ : Type} (run : β → γ) (xs : List β) :
    ∀ (order : List Nat), order.Nodup →
      ∀ (i : Nat) (h : i < xs.length), i ∈ order →
      (iterEvents run xs order).lookup i = some (run xs[i]) := by
  intro order
  induction order with
  | nil =>
      intro _ i h hi
      cases hi
  | cons j rest ih =>
      intro hnd i h hi
      obtain ⟨hj, hndr⟩ := List.nodup_cons.mp hnd
      unfold iterEvents
      rw [List.filterMap_cons]
      rcases List.mem_cons.mp hi with rfl | hir
      · have hget : xs[i]? = some xs[i] := List.getElem?_eq_getElem h
        rw [hget]
        simp [List.lookup]
      · have hne : i ≠ j := fun he => hj (he ▸ hir)
        cases hg : xs[j]? with
        | none =>
            simp only [Option.map_none']
            exact ih hndr i h hir
        | some x =>
            simp only [Option.map_some']
            have hbeq : (i == j) = false := beq_eq_false_iff_ne.mpr hne
            simp only [List.lookup, hbeq]
            exact ih hndr i h hir

lemma forEachNode_perm {β γ : Type} (run : β → γ) (xs : List β) (order : List Nat)
    (hperm : order.Perm (List.range xs.length)) :
    forEachNode run xs order = xs.map (fun x => some (run x)) := by
  have hnd : order.Nodup := (List.Perm.nodup_iff hperm).mpr (List.nodup_range _)
  apply List.ext_getElem
  · simp [forEachNode, assembleOutput]
  · intro i h1 h2
    have hlen : i < xs.length := by
      simpa [forEachNode, assembleOutput] using h1
    simp only [forEachNode, assembleOutput, List.getElem_map, List.getElem_range]
    exact lookup_iterEvents run xs order hnd i hlen
      (hperm.mem_iff.mpr (List.mem_range.mpr hlen))

/-- C5: a `forEach` node's output binding is the list of the iterations'
final outcomes in source-collection order, regardless of the order in
which iterations complete: for any completion order that is a permutation
of the source positions, the assembled output equals the source-order map
of per-iteration outcomes (so a failure at position `i` appears exactly at
index `i`). -/
theorem C5_forEach_positional_output :
    ∀ (β α : Type) (run : β → IterOutcome α) (xs : List β) (order : List Nat),
      order.Perm (List.range xs.length) →
      forEachNode run xs order = xs.map (fun x => some (run x)) := by
  intro β α run xs order h
  exact forEachNode_perm run xs order h

/-- C5 witness: `forEach` over `[a, b, c]` with `b` failing and the
iterations completing in the order `c, a, b` still yields
`[resultA, FAILED, resultC]` positionally. -/
theorem C5_forEach_positional_output_witness :
    forEachNode (fun x : Nat => if x = 20 then IterOutcome.failed else IterOutcome.success x)
        [10, 20, 30] [2, 0, 1] =
      [some (IterOutcome.success 10), some IterOutcome.failed,
        some (IterOutcome.success 30)] := by
  rw [C5_forEach_positional_output Nat Nat _ [10, 20, 30] [2, 0, 1] (by decide)]
  rfl

lemma mem_unresolvedRefs {ws : List StepSpec} {st : StepSpec} {r : String}
    (hst : st ∈ ws) (hr : r ∈ stepRefs st) (hs : isSpecialRef r = false)
    (hc : (workflowIds ws).contains r = false) : r ∈ unresolvedRefs ws := by
  unfold unresolvedRefs
  rw [List.mem_flatten]
  refine ⟨(stepRefs st).filter
    (fun x => !isSpecialRef x && !(workflowIds ws).contains x),
    List.mem_map.mpr ⟨st, hst, rfl⟩, ?_⟩
  rw [List.mem_filter]
  refine ⟨hr, ?_⟩
  rw [hs, hc]
  rfl

lemma unresolvedRefs_nil {ws : List StepSpec}
    (h : ∀ st ∈ ws, ∀ r ∈ stepRefs st,
      isSpecialRef r = true ∨ (workflowIds ws).contains r = true) :
    unresolvedRefs ws = [] := by
  unfold unresolvedRefs
  rw [List.flatten_eq_nil_iff]
  intro l hl
  rw [List.mem_map] at hl
  obtain ⟨st, hst, rfl⟩ := hl
  rw [List.filter_eq_nil_iff]
  intro r hr
  rcases h st hst r hr with hsp | hco
  · rw [hsp]
    simp
  · rw [hco]
    simp

lemma hasCycleAux_cycle (S : List String) (hS1 : S ≠ []) :
    ∀ (fuel : Nat) (pending : List (String × List String)) (resolved : List String),
      (∀ x ∈ S, ∃ p ∈ pending, p.1 = x) →
      (∀ x ∈ S, ∀ p ∈ pending, p.1 = x → ∃ y ∈ S, y ∈ p.2) →
      (∀ x ∈ S, x ∉ resolved) →
      hasCycleAux fuel pending resolved = true := by
  intro fuel
  induction fuel with
  | zero =>
      intro pending resolved h2 _ _
      obtain ⟨x, hx⟩ := List.exists_mem_of_ne_nil S hS1
      obtain ⟨p, hp, -⟩ := h2 x hx
      show (!pending.isEmpty) = true
      cases pending with
      | nil => cases hp
      | cons a l => rfl
  | succ m ih =>
      intro pending resolved h2 h3 h4
      have hnotready : ∀ p ∈ pending, p.1 ∈ S →
          (p.2.all (fun d => resolved.contains d)) = false := by
        intro p hp hpx
        obtain ⟨y, hyS, hyp⟩ := h3 p.1 hpx p hp rfl
        by_contra hall
        rw [Bool.not_eq_false] at hall
        rw [List.all_eq_true] at hall
        have hy : y ∈ resolved := by simpa using hall y hyp
        exact h4 y hyS hy
      show hasCycleAux (m + 1) pending resolved = true
      simp only [hasCycleAux]
      by_cases hready :
          (pending.filter (fun p => p.2.all (fun d => resolved.contains d))).isEmpty = true
      · rw [if_pos hready]
        obtain ⟨x, hx⟩ := List.exists_mem_of_ne_nil S hS1
        obtain ⟨p, hp, -⟩ := h2 x hx
        cases pending with
        | nil => cases hp
        | cons a l => rfl
      · rw [if_neg hready]
        refine ih _ _ ?_ ?_ ?_
        · intro x hx
          obtain ⟨p, hp, hpx⟩ := h2 x hx
          refine ⟨p, ?_, hpx⟩
          rw [List.mem_filter]
          refine ⟨hp, ?_⟩
          have hpS : p.1 ∈ S := by rw [hpx]; exact hx
          rw [hnotready p hp hpS]
          rfl
        · intro x hx p hp hpx
          exact h3 x hx p (List.mem_of_mem_filter hp) hpx
        · intro x hx
          rw [List.mem_append]
          rintro (h | h)
          · exact h4 x hx h
          · rw [List.mem_map] at h
            obtain ⟨q, hq, hqx⟩ := h
            have hqready := (List.mem_filter.mp hq).2
            have hqS : q.1 ∈ S := by rw [hqx]; exact hx
            rw [hnotready q (List.mem_of_mem_filter hq) hqS] at hqready
            cases hqready

lemma validateWorkflow_errors (ws : List StepSpec) :
    (validateWorkflow ws).errors =
      (unresolvedRefs ws).map ValidationError.unresolvedReference
        ++ (if hasCycle ws then [ValidationError.cyclicDependency] else []) := rfl

lemma validateWorkflow_valid (ws : List StepSpec) :
    (validateWorkflow ws).valid = (validateWorkflow ws).errors.isEmpty := rfl

lemma valid_false_of_mem {ws : List StepSpec} {e : ValidationError}
    (h : e ∈ (validateWorkflow ws).errors) : (validateWorkflow ws).valid = false := by
  rw [validateWorkflow_valid]
  cases herr : (validateWorkflow ws).errors with
  | nil => rw [herr] at h; cases h
  | cons a l => rfl

lemma executedStepIds_of_invalid {ws : List StepSpec}
    (h : (validateWorkflow ws).valid = false) : executedStepIds ws = [] := by
  unfold executedStepIds
  rw [h]
  rfl

/-- C6: a workflow definition containing a reference to a nonexistent step
id fails validation with an `UnresolvedReferenceError` and no step
executes; a definition whose dependency map contains a cycle (a nonempty
set of steps each depending on another member of the set) fails validation
with a `CyclicDependencyError` and no step executes; a definition whose
references all resolve (to a step, the trigger, or a credential) and whose
graph is acyclic validates with an empty error list. -/
theorem C6_validation_fail_fast :
    (∀ (ws : List StepSpec) (st : StepSpec) (r : String),
      st ∈ ws → r ∈ stepRefs st → isSpecialRef r = false →
      (workflowIds ws).contains r = false →
      (validateWorkflow ws).valid = false ∧
      ValidationError.unresolvedReference r ∈ (validateWorkflow ws).errors ∧
      executedStepIds ws = []) ∧
    (∀ (ws : List StepSpec) (S : List String),
      S ≠ [] →
      (∀ x ∈ S, ∃ p ∈ depsMap ws, p.1 = x) →
      (∀ x ∈ S, ∀ p ∈ depsMap ws, p.1 = x → ∃ y ∈ S, y ∈ p.2) →
      (validateWorkflow ws).valid = false ∧
      ValidationError.cyclicDependency ∈ (validateWorkflow ws).errors ∧
      executedStepIds ws = []) ∧
    (∀ (ws : List StepSpec),
      (∀ st ∈ ws, ∀ r ∈ stepRefs st,
        isSpecialRef r = true ∨ (workflowIds ws).contains r = true) →
      hasCycle ws = false →
      (validateWorkflow ws).valid = true ∧ (validateWorkflow ws).errors = []) := by
  refine ⟨?_, ?_, ?_⟩
  · intro ws st r hst hr hs hc
    have hmem := mem_unresolvedRefs hst hr hs hc
    have herr : ValidationError.unresolvedReference r ∈ (validateWorkflow ws).errors := by
      rw [validateWorkflow_errors]
      exact List.mem_append_left _ (List.mem_map.mpr ⟨r, hmem, rfl⟩)
    have hval := valid_false_of_mem herr
    exact ⟨hval, herr, executedStepIds_of_invalid hval⟩
  · intro ws S hS1 h2 h3
    have hcyc : hasCycle ws = true :=
      hasCycleAux_cycle S hS1 ws.length (depsMap ws) [] h2 h3 (by simp)
    have herr : ValidationError.cyclicDependency ∈ (validateWorkflow ws).errors := by
      rw [validateWorkflow_errors, hcyc]
      exact List.mem_append_right _ (by simp)
    have hval := valid_false_of_mem herr
    exact ⟨hval, herr, executedStepIds_of_invalid hval⟩
  · intro ws hres hcyc
    have herrs : (validateWorkflow ws).errors = [] := by
      rw [validateWorkflow_errors, unresolvedRefs_nil hres, hcyc]
      rfl
    refine ⟨?_, herrs⟩
    rw [validateWorkflow_valid, herrs]
    rfl

/-- C6 witness: a definition referencing the nonexistent step `B` fails
with an unresolved-reference error and executes nothing; the two-step
definition `A references B, B references A` fails with a
cyclic-dependency error and executes nothing; a well-formed two-step
definition (one trigger reference, one step reference) validates with no
errors. -/
theorem C6_validation_fail_fast_witness :
    ((validateWorkflow [⟨"A", [("x", "\x7b\x7bB.out\x7d\x7d")]⟩]).valid = false ∧
      ValidationError.unresolvedReference "B" ∈
        (validateWorkflow [⟨"A", [("x", "\x7b\x7bB.out\x7d\x7d")]⟩]).errors ∧
      executedStepIds [⟨"A", [("x", "\x7b\x7bB.out\x7d\x7d")]⟩] = []) ∧
    ((validateWorkflow [⟨"A", [("x", "\x7b\x7bB.out\x7d\x7d")]⟩,
        ⟨"B", [("y", "\x7b\x7bA.out\x7d\x7d")]⟩]).valid = false ∧
      ValidationError.cyclicDependency ∈
        (validateWorkflow [⟨"A", [("x", "\x7b\x7bB.out\x7d\x7d")]⟩,
          ⟨"B", [("y", "\x7b\x7bA.out\x7d\x7d")]⟩]).errors ∧
      executedStepIds [⟨"A", [("x", "\x7b\x7bB.out\x7d\x7d")]⟩,
        ⟨"B", [("y", "\x7b\x7bA.out\x7d\x7d")]⟩] = []) ∧
    ((validateWorkflow [⟨"A", [("x", "\x7b\x7btrigger.q\x7d\x7d")]⟩,
        ⟨"B", [("y", "\x7b\x7bA.out\x7d\x7d")]⟩]).valid = true ∧
      (validateWorkflow [⟨"A", [("x", "\x7b\x7btrigger.q\x7d\x7d")]⟩,
        ⟨"B", [("y", "\x7b\x7bA.out\x7d\x7d")]⟩]).errors = []) := by
  obtain ⟨h1, h2, h3⟩ := C6_validation_fail_fast
  exact ⟨h1 [⟨"A", [("x", "\x7b\x7bB.out\x7d\x7d")]⟩] ⟨"A", [("x", "\x7b\x7bB.out\x7d\x7d")]⟩
      "B" (by simp) (by decide) (by decide) (by decide),
    h2 [⟨"A", [("x", "\x7b\x7bB.out\x7d\x7d")]⟩, ⟨"B", [("y", "\x7b\x7bA.out\x7d\x7d")]⟩]
      ["A", "B"] (by decide) (by decide) (by decide),
    h3 [⟨"A", [("x", "\x7b\x7btrigger.q\x7d\x7d")]⟩, ⟨"B", [("y", "\x7b\x7bA.out\x7d\x7d")]⟩]
      (by decide) (by decide)⟩

lemma runJobAux_all_fail (opts : JobOptions) (succeeds : Nat → Bool)
    (hf : ∀ k, succeeds k = false) :
    ∀ (rem used : Nat),
      runJobAux opts succeeds rem used = .failedRetained (used + rem) opts.removeOnFail.age := by
  intro rem
  induction rem with
  | zero => intro used; rfl
  | succ m ih =>
      intro used
      show runJobAux opts succeeds (m + 1) used = _
      simp only [runJobAux, hf (used + 1)]
      rw [ih (used + 1)]
      have h : used + 1 + m = used + (m + 1) := by omega
      rw [h]
      simp

lemma runJobAux_used_le (opts : JobOptions) (succeeds : Nat → Bool) :
    ∀ (rem used : Nat), (runJobAux opts succeeds rem used).attemptsUsed ≤ used + rem := by
  intro rem
  induction rem with
  | zero => intro used; exact Nat.le_refl _
  | succ m ih =>
      intro used
      show (runJobAux opts succeeds (m + 1) used).attemptsUsed ≤ _
      by_cases hs : succeeds (used + 1) = true
      · simp only [runJobAux, hs, if_true]
        show used + 1 ≤ used + (m + 1)
        omega
      · simp only [runJobAux, hs]
        have := ih (used + 1)
        simp only [Bool.false_eq_true, if_false]
        omega

/-- C7: the run queue of `setupTwitterReplyJob` retries an erroring run
with exponential backoff up to 3 attempts (backoff starting at a 5-second
delay, then doubling); a run that fails every attempt is attempted
exactly 3 times and then marked terminally failed and retained for the
7-day `removeOnFail` window rather than discarded; no run is ever
attempted more often than the configured attempt count. -/
theorem C7_run_queue_retry :
    (∀ succeeds : Nat → Bool, (∀ k, succeeds k = false) →
      runJob twitterReplyJobOptions succeeds = .failedRetained 3 604800) ∧
    (∀ (opts : JobOptions) (succeeds : Nat → Bool),
      (runJob opts succeeds).attemptsUsed ≤ opts.attempts) ∧
    twitterReplyJobOptions.attempts = 3 ∧
    twitterReplyJobOptions.backoff = ⟨"exponential", 5000⟩ ∧
    retryDelays twitterReplyJobOptions = [5000, 10000] ∧
    twitterReplyJobOptions.removeOnFail.age = 604800 ∧
    0 < twitterReplyJobOptions.removeOnFail.age := by
  refine ⟨?_, ?_, rfl, rfl, by decide, rfl, by decide⟩
  · intro succeeds hf
    show runJobAux twitterReplyJobOptions succeeds 3 0 = _
    rw [runJobAux_all_fail twitterReplyJobOptions succeeds hf 3 0]
    rfl
  · intro opts succeeds
    have := runJobAux_used_le opts succeeds opts.attempts 0
    simpa using this

/-- C7 witness: a run that raises on every attempt is attempted exactly
3 times, then terminally failed and retained for 604800 seconds. -/
theorem C7_run_queue_retry_witness :
    runJob twitterReplyJobOptions (fun _ => false) = .failedRetained 3 604800 ∧
    (runJob twitterReplyJobOptions (fun _ => false)).attemptsUsed ≤ 3 := by
  obtain ⟨h1, h2, h3, -⟩ := C7_run_queue_retry
  refine ⟨h1 (fun _ => false) (fun _ => rfl), ?_⟩
  have := h2 twitterReplyJobOptions (fun _ => false)
  rwa [h3] at this

lemma getOrCreateEntry_idem {α : Type} (reg : List (String × α)) (id : String) (init : α) :
    getOrCreateEntry (getOrCreateEntry reg id init).2 id init = getOrCreateEntry reg id init := by
  unfold getOrCreateEntry
  cases h : reg.lookup id with
  | some st => simp [h]
  | none => simp [h, List.lookup]

lemma registryCall_lookup {α : Type} (rId : Nat) (reg : List (String × α)) (id : String)
    (init : α) (f : α → α) :
    (registryCall rId reg id init f).lookup id = some (f (getOrCreateEntry reg id init).1) := by
  unfold registryCall
  simp [List.lookup]

lemma registryCall_preserves {α : Type} (rId : Nat) (reg : List (String × α))
    (id id2 : String) (init : α) (f : α → α) (h : (reg.lookup id).isSome = true) :
    ((registryCall rId reg id2 init f).lookup id).isSome = true := by
  unfold registryCall
  by_cases he : (id == id2) = true
  · simp [List.lookup, he]
  · rw [Bool.not_eq_true] at he
    simp only [List.lookup, he]
    unfold getOrCreateEntry
    cases h2 : reg.lookup id2 with
    | some st => simpa using h
    | none => simp [List.lookup, he, h]

/-- C8: the per-endpoint resilience state is process-wide and shared.
A registry entry is created lazily on first use and never recreated; a
call's effect on an endpoint's state is independent of which run makes
it; after any run's call, every later lookup of that endpoint observes
the mutated state; a call never destroys any endpoint's state; and in the
source every gamma operation shares the module's single rate limiter
(id `gamma`) while every todoist operation shares the module's single
rate limiter (id `todoist`). -/
theorem C8_process_wide_registries :
    (∀ (α : Type) (reg : List (String × α)) (id : String) (init : α),
      getOrCreateEntry (getOrCreateEntry reg id init).2 id init =
        getOrCreateEntry reg id init) ∧
    (∀ (α : Type) (r1 r2 : Nat) (reg : List (String × α)) (id : String) (init : α)
      (f : α → α), registryCall r1 reg id init f = registryCall r2 reg id init f) ∧
    (∀ (α : Type) (rId : Nat) (reg : List (String × α)) (id : String) (init : α)
      (f : α → α),
      (registryCall rId reg id init f).lookup id =
        some (f (getOrCreateEntry reg id init).1)) ∧
    (∀ (α : Type) (rId : Nat) (reg : List (String × α)) (id id2 : String) (init : α)
      (f : α → α), (reg.lookup id).isSome = true →
      ((registryCall rId reg id2 init f).lookup id).isSome = true) ∧
    (∀ a b : GammaOp, gammaOpLimiter a = gammaOpLimiter b) ∧
    (∀ a b : TodoistOp, todoistOpLimiter a = todoistOpLimiter b) ∧
    (gammaOpLimiter GammaOp.generateGamma).id = "gamma" ∧
    (todoistOpLimiter TodoistOp.getAllTasks).id = "todoist" := by
  refine ⟨?_, ?_, ?_, ?_, fun _ _ => rfl, fun _ _ => rfl, rfl, rfl⟩
  · intro α reg id init
    exact getOrCreateEntry_idem reg id init
  · intro α r1 r2 reg id init f
    rfl
  · intro α rId reg id init f
    exact registryCall_lookup rId reg id init f
  · intro α rId reg id id2 init f h
    exact registryCall_preserves rId reg id id2 init f h

/-- C8 witness: the registry theorem applied at the gamma endpoint with a
concrete token-count state: a call by run 1 consumes a token and a later
observer (run 2) of the same endpoint sees the consumed count, while a
call on another endpoint leaves the gamma entry alive. -/
theorem C8_process_wide_registries_witness :
    getOrCreateEntry (getOrCreateEntry ([] : List (String × Nat)) "gamma" 60).2 "gamma" 60 =
      getOrCreateEntry ([] : List (String × Nat)) "gamma" 60 ∧
    registryCall 1 ([] : List (String × Nat)) "gamma" 60 (fun t => t - 1) =
      registryCall 2 ([] : List (String × Nat)) "gamma" 60 (fun t => t - 1) ∧
    (registryCall 1 ([] : List (String × Nat)) "gamma" 60 (fun t => t - 1)).lookup "gamma" =
      some 59 ∧
    (((registryCall 2 [("gamma", 59)] "todoist" 10 (fun t => t)).lookup "gamma").isSome
      = true) := by
  obtain ⟨h1, h2, h3, h4, -⟩ := C8_process_wide_registries
  refine ⟨h1 Nat [] "gamma" 60, h2 Nat 1 2 [] "gamma" 60 (fun t => t - 1), ?_,
    h4 Nat 2 [("gamma", 59)] "gamma" "todoist" 10 (fun t => t) (by decide)⟩
  rw [h3 Nat 1 [] "gamma" 60 (fun t => t - 1)]
  rfl

/-- C9 counterexample: `deleteTask` resolves `todoistRequest`'s result
directly — on a 200 response whose body satisfies no todoist schema it
resolves to that body unvalidated, so the claim that every operation
validates the parsed JSON body against its zod schema before returning is
false. -/
theorem C9_delete_unvalidated_counterexample :
    todoistOpHandleResponse TodoistOp.deleteTask ⟨200, "", Json.str "junk"⟩ =
      Except.ok (Json.str "junk") ∧
    validateTask (Json.str "junk") = false ∧
    validateTaskArray (Json.str "junk") = false ∧
    validateProject (Json.str "junk") = false ∧
    validateSection (Json.str "junk") = false ∧
    validateComment (Json.str "junk") = false ∧
    validateLabel (Json.str "junk") = false :=
  ⟨rfl, rfl, rfl, rfl, rfl, rfl, rfl⟩

/-- C9 (amended): `todoistRequest` throws on a non-ok response with a
message naming the numeric status and the body text, resolves a 204 to
`\x7bsuccess: true\x7d`, and otherwise resolves to the parsed JSON body;
every operation with a response schema — the `get`, `getAll`, `create`
and `update` operations of the five entities — validates the body against
that zod schema before resolving, while exactly `closeTask`, `reopenTask`
and the five `delete` operations return `todoistRequest`'s result without
response-schema validation. -/
theorem C9_todoist_request_amended :
    (∀ r : HttpResponse, respOk r = false →
      todoistRequest r =
        .error ("Todoist API error (" ++ toString r.status ++ "): " ++ r.bodyText)) ∧
    (∀ r : HttpResponse, respOk r = true → r.status = 204 →
      todoistRequest r = .ok (Json.obj [("success", Json.bool true)])) ∧
    (∀ r : HttpResponse, respOk r = true → r.status ≠ 204 →
      todoistRequest r = .ok r.body) ∧
    (∀ (op : TodoistOp) (r : HttpResponse) (v : Json) (check : Json → Bool),
      todoistResponseSchema op = some check →
      todoistOpHandleResponse op r = .ok v → check v = true) ∧
    (∀ (op : TodoistOp) (r : HttpResponse),
      todoistResponseSchema op = none → todoistOpHandleResponse op r = todoistRequest r) ∧
    (∀ op : TodoistOp,
      (todoistResponseSchema op).isNone = true ↔
        op ∈ ([.closeTask, .reopenTask, .deleteTask, .deleteProject, .deleteSection,
          .deleteComment, .deleteLabel] : List TodoistOp)) := by
  refine ⟨?_, ?_, ?_, ?_, ?_, ?_⟩
  · intro r h
    unfold todoistRequest
    rw [h]
    rfl
  · intro r h h204
    unfold todoistRequest
    rw [h, h204]
    rfl
  · intro r h h204
    unfold todoistRequest
    rw [h]
    rw [if_neg (by simp)]
    rw [if_neg h204]
  · intro op r v check hc h
    cases hreq : todoistRequest r with
    | error e =>
        simp only [todoistOpHandleResponse, hreq] at h
        cases h
    | ok w =>
        simp only [todoistOpHandleResponse, hreq, hc] at h
        by_cases hv : check w = true
        · rw [if_pos hv] at h
          cases h
          exact hv
        · rw [if_neg hv] at h
          cases h
  · intro op r hnone
    cases hreq : todoistRequest r with
    | error e => simp [todoistOpHandleResponse, hreq]
    | ok w => simp [todoistOpHandleResponse, hreq, hnone]
  · intro op
    cases op <;> decide

/-- C9 witness: the amended theorem applied at concrete inputs — a 404
with body `Not found` throws with both in the message, a 204 resolves to
`\x7bsuccess: true\x7d`, a 200 resolves to its body; `getAllTasks`,
`getProject`, `createSection`, `updateComment` and `getLabel` resolve
only to schema-valid bodies, and `closeTask`, `reopenTask` and
`deleteLabel` pass the raw result through. -/
theorem C9_todoist_request_amended_witness :
    todoistRequest ⟨404, "Not found", Json.null⟩ =
      Except.error "Todoist API error (404): Not found" ∧
    todoistRequest ⟨204, "", Json.null⟩ =
      Except.ok (Json.obj [("success", Json.bool true)]) ∧
    todoistRequest ⟨200, "", Json.arr []⟩ = Except.ok (Json.arr []) ∧
    validateTaskArray (Json.arr []) = true ∧
    validateProject (Json.obj [("id", Json.str "1"), ("name", Json.str "Inbox"),
      ("comment_count", Json.num 0), ("order", Json.num 1), ("color", Json.str "grey"),
      ("is_shared", Json.bool false), ("is_favorite", Json.bool false),
      ("is_inbox_project", Json.bool true), ("is_team_inbox", Json.bool false),
      ("view_style", Json.str "list"), ("url", Json.str "u")]) = true ∧
    validateSection (Json.obj [("id", Json.str "7"), ("project_id", Json.str "1"),
      ("order", Json.num 1), ("name", Json.str "To Do")]) = true ∧
    validateComment (Json.obj [("id", Json.str "9"), ("content", Json.str "hi"),
      ("posted_at", Json.str "now")]) = true ∧
    validateLabel (Json.obj [("id", Json.str "3"), ("name", Json.str "urgent"),
      ("color", Json.str "red"), ("order", Json.num 1),
      ("is_favorite", Json.bool true)]) = true ∧
    todoistOpHandleResponse TodoistOp.closeTask ⟨204, "", Json.null⟩ =
      todoistRequest ⟨204, "", Json.null⟩ ∧
    todoistOpHandleResponse TodoistOp.reopenTask ⟨200, "", Json.str "x"⟩ =
      todoistRequest ⟨200, "", Json.str "x"⟩ ∧
    todoistOpHandleResponse TodoistOp.deleteLabel ⟨200, "", Json.str "x"⟩ =
      todoistRequest ⟨200, "", Json.str "x"⟩ := by
  obtain ⟨h1, h2, h3, h4, h5, h6⟩ := C9_todoist_request_amended
  refine ⟨?_, h2 ⟨204, "", Json.null⟩ rfl rfl, h3 ⟨200, "", Json.arr []⟩ rfl (by decide),
    h4 TodoistOp.getAllTasks ⟨200, "", Json.arr []⟩ (Json.arr []) validateTaskArray rfl rfl,
    h4 TodoistOp.getProject
      ⟨200, "", Json.obj [("id", Json.str "1"), ("name", Json.str "Inbox"),
        ("comment_count", Json.num 0), ("order", Json.num 1), ("color", Json.str "grey"),
        ("is_shared", Json.bool false), ("is_favorite", Json.bool false),
        ("is_inbox_project", Json.bool true), ("is_team_inbox", Json.bool false),
        ("view_style", Json.str "list"), ("url", Json.str "u")]⟩
      (Json.obj [("id", Json.str "1"), ("name", Json.str "Inbox"),
        ("comment_count", Json.num 0), ("order", Json.num 1), ("color", Json.str "grey"),
        ("is_shared", Json.bool false), ("is_favorite", Json.bool false),
        ("is_inbox_project", Json.bool true), ("is_team_inbox", Json.bool false),
        ("view_style", Json.str "list"), ("url", Json.str "u")])
      validateProject rfl rfl,
    h4 TodoistOp.createSection
      ⟨200, "", Json.obj [("id", Json.str "7"), ("project_id", Json.str "1"),
        ("order", Json.num 1), ("name", Json.str "To Do")]⟩
      (Json.obj [("id", Json.str "7"), ("project_id", Json.str "1"),
        ("order", Json.num 1), ("name", Json.str "To Do")])
      validateSection rfl rfl,
    h4 TodoistOp.updateComment
      ⟨200, "", Json.obj [("id", Json.str "9"), ("content", Json.str "hi"),
        ("posted_at", Json.str "now")]⟩
      (Json.obj [("id", Json.str "9"), ("content", Json.str "hi"),
        ("posted_at", Json.str "now")])
      validateComment rfl rfl,
    h4 TodoistOp.getLabel
      ⟨200, "", Json.obj [("id", Json.str "3"), ("name", Json.str "urgent"),
        ("color", Json.str "red"), ("order", Json.num 1),
        ("is_favorite", Json.bool true)]⟩
      (Json.obj [("id", Json.str "3"), ("name", Json.str "urgent"),
        ("color", Json.str "red"), ("order", Json.num 1),
        ("is_favorite", Json.bool true)])
      validateLabel rfl rfl,
    h5 TodoistOp.closeTask ⟨204, "", Json.null⟩ rfl,
    h5 TodoistOp.reopenTask ⟨200, "", Json.str "x"⟩ rfl,
    h5 TodoistOp.deleteLabel ⟨200, "", Json.str "x"⟩ rfl⟩
  rw [h1 ⟨404, "Not found", Json.null⟩ rfl]
  rfl

lemma searchResults_no_links {params : SearchParams} {entries : List RawEntry} {t : Tweet}
    (hl : params.removePostsWithLinks = true)
    (ht : t ∈ searchTwitterResults params entries) : hasUrl t.text = false := by
  unfold searchTwitterResults at ht
  simp only [hl, if_true] at ht
  have ht2 : t ∈ (entries.filterMap parseEntry).filter (fun t => !hasUrl t.text) := by
    by_cases hm : params.removePostsWithMedia = true
    · rw [if_pos hm] at ht
      exact List.mem_of_mem_filter ht
    · rw [if_neg hm] at ht
      exact ht
  have := (List.mem_filter.mp ht2).2
  simpa using this

lemma searchResults_no_media {params : SearchParams} {entries : List RawEntry} {t : Tweet}
    (hm : params.removePostsWithMedia = true)
    (ht : t ∈ searchTwitterResults params entries) : t.media = [] := by
  unfold searchTwitterResults at ht
  simp only [hm, if_true] at ht
  have := (List.mem_filter.mp ht).2
  exact List.isEmpty_iff.mp this

lemma searchResults_skip_malformed (params : SearchParams) (e : RawEntry)
    (entries : List RawEntry) (h : parseEntry e = none) :
    searchTwitterResults params (e :: entries) = searchTwitterResults params entries := by
  unfold searchTwitterResults
  rw [List.filterMap_cons_none h]

/-- C10: when `removePostsWithLinks` is set, no returned tweet's text
matches the URL pattern; when `removePostsWithMedia` is set, every
returned tweet has an empty media list; and a malformed entry (missing
tweet result, wrong typename, missing legacy or user data, or a
visibility wrapper with no inner tweet) is skipped individually without
affecting the rest of the search. -/
theorem C10_search_twitter_filters :
    (∀ (params : SearchParams) (entries : List RawEntry) (t : Tweet),
      params.removePostsWithLinks = true → t ∈ searchTwitterResults params entries →
      hasUrl t.text = false) ∧
    (∀ (params : SearchParams) (entries : List RawEntry) (t : Tweet),
      params.removePostsWithMedia = true → t ∈ searchTwitterResults params entries →
      t.media = []) ∧
    (∀ (params : SearchParams) (e : RawEntry) (entries : List RawEntry),
      parseEntry e = none →
      searchTwitterResults params (e :: entries) = searchTwitterResults params entries) ∧
    parseEntry ⟨none⟩ = none ∧
    (∀ (tn rid : String) (inner : Option RawResult) (l : Option RawLegacy)
      (u : Option RawUser) (v : Option Nat),
      tn ≠ "TweetWithVisibilityResults" → tn ≠ "Tweet" →
      parseEntry ⟨some (.node tn rid inner l u v)⟩ = none) ∧
    (∀ (rid : String) (inner : Option RawResult) (u : Option RawUser) (v : Option Nat),
      parseEntry ⟨some (.node "Tweet" rid inner none u v)⟩ = none) ∧
    (∀ (rid : String) (inner : Option RawResult) (l : RawLegacy) (v : Option Nat),
      parseEntry ⟨some (.node "Tweet" rid inner (some l) none v)⟩ = none) ∧
    (∀ (rid : String) (l : Option RawLegacy) (u : Option RawUser) (v : Option Nat),
      parseEntry ⟨some (.node "TweetWithVisibilityResults" rid none l u v)⟩ = none) := by
  refine ⟨?_, ?_, searchResults_skip_malformed, rfl, ?_, ?_, ?_, ?_⟩
  · intro params entries t hl ht
    exact searchResults_no_links hl ht
  · intro params entries t hm ht
    exact searchResults_no_media hm ht
  · intro tn rid inner l u v h1 h2
    simp only [parseEntry, unwrapResult, if_neg h1, if_neg h2]
  · intro rid inner u v
    rfl
  · intro rid inner l v
    rfl
  · intro rid l u v
    rfl

/-- C10 witness: the filter theorem applied at a concrete search — with
both filters on, a search over a good tweet, a link tweet, a media tweet
and a malformed entry returns only the clean tweet, whose text has no URL
and whose media list is empty; the malformed and wrong-typename entries
parse to nothing. -/
theorem C10_search_twitter_filters_witness :
    hasUrl sampleGoodTweet.text = false ∧
    sampleGoodTweet.media = [] ∧
    searchTwitterResults ⟨true, true⟩ [⟨none⟩, sampleGoodEntry, sampleLinkEntry] =
      searchTwitterResults ⟨true, true⟩ [sampleGoodEntry, sampleLinkEntry] ∧
    parseEntry ⟨some (.node "Other" "9" none none none none)⟩ = none ∧
    parseEntry ⟨some (.node "Tweet" "9" none none none none)⟩ = none := by
  obtain ⟨h1, h2, h3, h4, h5, h6, h7, h8⟩ := C10_search_twitter_filters
  exact ⟨h1 ⟨true, true⟩ [sampleGoodEntry, sampleLinkEntry] sampleGoodTweet rfl (by decide),
    h2 ⟨true, true⟩ [sampleGoodEntry, sampleLinkEntry] sampleGoodTweet rfl (by decide),
    h3 ⟨true, true⟩ ⟨none⟩ [sampleGoodEntry, sampleLinkEntry] rfl,
    h5 "Other" "9" none none none none (by decide) (by decide), h6 "9" none none none⟩

end SocialCat
